import Mathlib

/-!
Shallow embedding of the tree-walking Lox interpreter (`src/walk_tree`):
scanner, parser, resolver, environment chain, value model, object model and
evaluator.  Rust `f64` numbers are modelled as `ℚ` (the claims under study do
not involve rounding, infinities or NaN); reference-counted pointers
(`Rc`/`Arc`) are modelled as indices into explicit stores, so pointer
identity becomes index equality; panics (`expect`, `unwrap`, indexing a
missing key) are modelled as a distinguished `hostPanic` outcome, distinct
from reported runtime errors.
-/

namespace Lox

/-- `TokenKind` from `token.rs` (literal-carrying variants keep their parsed
value; `f64` modelled as `ℚ`). -/
inductive TokenKind where
  | leftParen | rightParen | leftBrace | rightBrace
  | comma | dot | minus | plus | semicolon | colon | slash | star
  | questionMark | bang | bangEqual | equal | equalEqual
  | greater | greaterEqual | less | lessEqual
  | identifier
  | string (s : String)
  | number (n : ℚ)
  | and | class_ | else_ | false_ | fun_ | for_ | if_ | nil
  | or | print | return_ | super_ | this_ | true_ | var | while_
  | eof
  deriving DecidableEq, Repr

/-- `Token` from `token.rs`: kind, exact source lexeme, source line. -/
structure Token where
  kind : TokenKind
  lexeme : String
  line : Nat
  deriving DecidableEq, Repr

/-- Runtime values (`value.rs`).  `Function`, `Class` and `Instance` hold
shared pointers in Rust; here they hold indices into the interpreter's
stores, so that pointer identity is index equality. -/
inductive Value where
  | boolean (b : Bool)
  | number (n : ℚ)
  | string (s : String)
  | function (id : Nat)
  | class_ (id : Nat)
  | instance_ (id : Nat)
  deriving DecidableEq, Repr

/-- `Cell` from `value.rs` is a struct wrapping `Option<Value>`; `none` is
the Lox `nil`. -/
abbrev Cell := Option Value

/-- The hand-written `impl PartialEq for Value` (value.rs lines 38-50):
structural for booleans, numbers and strings, pointer identity for
`Function`, and the catch-all arm `_ => false` for every other pairing
(including `Class` with `Class` and `Instance` with `Instance`). -/
def valueEq : Value → Value → Bool
  | .boolean l, .boolean r => l == r
  | .number l, .number r => l == r
  | .string l, .string r => l == r
  | .function l, .function r => l == r
  | _, _ => false

/-- The derived `PartialEq` on `Cell` (a wrapped `Option<Value>`): `nil`
equals `nil`, two present values compare with `valueEq`, and `nil` never
equals a present value. -/
def cellEq : Cell → Cell → Bool
  | none, none => true
  | some l, some r => valueEq l r
  | _, _ => false

/-- `Cell::is_truthy` (value.rs lines 186-193): `nil` is falsy, a boolean is
its own truth value, everything else is truthy. -/
def Cell.isTruthy : Cell → Bool
  | none => false
  | some (.boolean value) => value
  | _ => true

/-- `Cell::is_number`. -/
def Cell.isNumber : Cell → Bool
  | some (.number _) => true
  | _ => false

/-- `Cell::is_string`. -/
def Cell.isString : Cell → Bool
  | some (.string _) => true
  | _ => false

/-- `Cell::as_class`. -/
def Cell.asClass : Cell → Option Nat
  | some (.class_ id) => some id
  | _ => none

/-- `Cell::as_instance`. -/
def Cell.asInstance : Cell → Option Nat
  | some (.instance_ id) => some id
  | _ => none

/-- `RuntimeError` from `error.rs`. -/
structure RuntimeErr where
  token : Option Token
  message : String
  deriving DecidableEq, Repr

/-- `RuntimeError::new`. -/
def RuntimeErr.new (token : Token) (message : String) : RuntimeErr :=
  ⟨some token, message⟩

/-- Abnormal outcomes of evaluation/execution.  `runtimeError` and `ret` are
the two `ControlFlow` variants (`control_flow.rs`); `hostPanic` models a
Rust panic (`expect`/`unwrap`/missing-key indexing/stack exhaustion), which
aborts the host process and is distinct from a reported runtime error. -/
inductive Fault where
  | runtimeError (e : RuntimeErr)
  | ret (v : Cell)
  | hostPanic (msg : String)
  deriving DecidableEq, Repr

end Lox

namespace Lox

/-- Insert-or-replace on an association list: the behaviour of
`HashMap::insert` used by `Environment::define` and friends. -/
def alInsert {α : Type} : List (String × α) → String → α → List (String × α)
  | [], name, value => [(name, value)]
  | (k, v) :: rest, name, value =>
    if k = name then (k, value) :: rest else (k, v) :: alInsert rest name value

/-- One scope frame (`environment.rs`): an optional parent and a name→value
map.  Frames live in a store (`EnvStore`) and refer to each other by index,
modelling the shared `Arc<RefCell<Environment>>` handles. -/
structure EnvRec where
  enclosing : Option Nat
  values : List (String × Cell)
  deriving Repr

abbrev EnvStore := List EnvRec

/-- `Environment::define`: insert into this frame's own map. -/
def envDefine (s : EnvStore) (e : Nat) (name : String) (value : Cell) : EnvStore :=
  match s.get? e with
  | some env => s.set e { env with values := alInsert env.values name value }
  | none => s

/-- `Environment::get`, chain walk with explicit fuel (a cyclic chain —
impossible for reachable stores — would overflow the host stack, modelled
as `hostPanic`). -/
def envGetAux (s : EnvStore) (name : Token) : Nat → Nat → Except Fault Cell
  | 0, _ => .error (.hostPanic "stack overflow")
  | fuel + 1, e =>
    match s.get? e with
    | none => .error (.hostPanic "dangling environment")
    | some env =>
      match env.values.lookup name.lexeme with
      | some cell => .ok cell
      | none =>
        match env.enclosing with
        | some parent => envGetAux s name fuel parent
        | none =>
          .error (.runtimeError (.new name ("Undefined variable '" ++ name.lexeme ++ "'.")))

/-- `Environment::get` from frame `e`. -/
def envGet (s : EnvStore) (e : Nat) (name : Token) : Except Fault Cell :=
  envGetAux s name (s.length + 1) e

/-- `Environment::assign`: chain walk, writing into the first frame that
already binds the name, erring with "Undefined variable" at the root. -/
def envAssignAux (s : EnvStore) (name : Token) (value : Cell) :
    Nat → Nat → Except Fault EnvStore
  | 0, _ => .error (.hostPanic "stack overflow")
  | fuel + 1, e =>
    match s.get? e with
    | none => .error (.hostPanic "dangling environment")
    | some env =>
      if (env.values.lookup name.lexeme).isSome then
        .ok (s.set e { env with values := alInsert env.values name.lexeme value })
      else
        match env.enclosing with
        | some parent => envAssignAux s name value fuel parent
        | none =>
          .error (.runtimeError (.new name ("Undefined variable '" ++ name.lexeme ++ "'.")))

/-- `Environment::assign` from frame `e`. -/
def envAssign (s : EnvStore) (e : Nat) (name : Token) (value : Cell) :
    Except Fault EnvStore :=
  envAssignAux s name value (s.length + 1) e

/-- `Environment::ancestor` (environment.rs lines 77-90): walk `distance`
parent hops.  `none` models the `expect("Environment exists")` panic hit
when some frame on the way has no parent. -/
def ancestor (s : EnvStore) : Nat → Nat → Option Nat
  | e, 0 => some e
  | e, d + 1 =>
    match s.get? e with
    | none => none
    | some env =>
      match env.enclosing with
      | some parent => ancestor s parent d
      | none => none

/-- `Environment::get_at` (environment.rs lines 52-54): jump to the ancestor
frame and index its own map directly.  `none` models a panic: either
`ancestor`'s `expect` (chain too short) or the `values[name]` indexing panic
(name not bound in that exact frame). -/
def getAt (s : EnvStore) (e : Nat) (distance : Nat) (name : String) : Option Cell :=
  (ancestor s e distance).bind fun a =>
    (s.get? a).bind fun env => env.values.lookup name

/-- `Environment::assing_at` (environment.rs lines 70-75, sic): jump to the
ancestor frame and `insert` into its own map.  `none` models the `ancestor`
panic; unlike `get_at`, a name the frame does not bind is simply inserted. -/
def assingAt (s : EnvStore) (e : Nat) (distance : Nat) (name : String) (value : Cell) :
    Option EnvStore :=
  (ancestor s e distance).map fun a =>
    match s.get? a with
    | some env => s.set a { env with values := alInsert env.values name value }
    | none => s

/-- `Interpreter::check_number_operand`. -/
def checkNumberOperand (operator : Token) (operand : Cell) : Except Fault Unit :=
  if operand.isNumber then .ok ()
  else .error (.runtimeError (.new operator "Operand must be a number."))

/-- `Interpreter::check_number_operands` (interpreter.rs lines 544-554; the
message reads "Operand must be numbers." in the source). -/
def checkNumberOperands (operator : Token) (left right : Cell) : Except Fault Unit :=
  if left.isNumber && right.isNumber then .ok ()
  else .error (.runtimeError (.new operator "Operand must be numbers."))

/-- `value::binary_operation` instantiated at two `f64` operands (the
`TryFrom` failure message is "Expect number."). -/
def binaryNumOp (op : ℚ → ℚ → ℚ) (operator : Token) (left right : Cell) :
    Except Fault Cell :=
  match left with
  | some (.number a) =>
    match right with
    | some (.number b) => .ok (some (.number (op a b)))
    | _ => .error (.runtimeError (.new operator "Expect number."))
  | _ => .error (.runtimeError (.new operator "Expect number."))

/-- `value::binary_operation` instantiated at two `f64` operands and a
boolean result (the comparison operators). -/
def binaryNumRel (op : ℚ → ℚ → Bool) (operator : Token) (left right : Cell) :
    Except Fault Cell :=
  match left with
  | some (.number a) =>
    match right with
    | some (.number b) => .ok (some (.boolean (op a b)))
    | _ => .error (.runtimeError (.new operator "Expect number."))
  | _ => .error (.runtimeError (.new operator "Expect number."))

/-- `value::binary_operation` instantiated at two strings with
concatenation (`|a, b| Rc::from(a + &b)`; failure message "Expect string."). -/
def binaryStringConcat (operator : Token) (left right : Cell) : Except Fault Cell :=
  match left with
  | some (.string a) =>
    match right with
    | some (.string b) => .ok (some (.string (a ++ b)))
    | _ => .error (.runtimeError (.new operator "Expect string."))
  | _ => .error (.runtimeError (.new operator "Expect string."))

/-- The operator dispatch of `Interpreter::evaluate_binary` (interpreter.rs
lines 261-320) on the two already-evaluated operand cells.  Note the `Plus`
arm's error message reads "Operands must be two numbers or two string." in
the source (line 288).  Division is `ℚ` division here (the claims under
study do not exercise division-by-zero float semantics). -/
def evaluateBinaryOp (operator : Token) (left right : Cell) : Except Fault Cell :=
  match operator.kind with
  | .minus =>
    match checkNumberOperands operator left right with
    | .error f => .error f
    | .ok _ => binaryNumOp (fun a b => a - b) operator left right
  | .plus =>
    if left.isNumber && right.isNumber then
      binaryNumOp (fun a b => a + b) operator left right
    else if left.isString && right.isString then
      binaryStringConcat operator left right
    else
      .error (.runtimeError (.new operator "Operands must be two numbers or two string."))
  | .slash =>
    match checkNumberOperands operator left right with
    | .error f => .error f
    | .ok _ => binaryNumOp (fun a b => a / b) operator left right
  | .star =>
    match checkNumberOperands operator left right with
    | .error f => .error f
    | .ok _ => binaryNumOp (fun a b => a * b) operator left right
  | .greater =>
    match checkNumberOperands operator left right with
    | .error f => .error f
    | .ok _ => binaryNumRel (fun a b => decide (a > b)) operator left right
  | .greaterEqual =>
    match checkNumberOperands operator left right with
    | .error f => .error f
    | .ok _ => binaryNumRel (fun a b => decide (a ≥ b)) operator left right
  | .less =>
    match checkNumberOperands operator left right with
    | .error f => .error f
    | .ok _ => binaryNumRel (fun a b => decide (a < b)) operator left right
  | .lessEqual =>
    match checkNumberOperands operator left right with
    | .error f => .error f
    | .ok _ => binaryNumRel (fun a b => decide (a ≤ b)) operator left right
  | .bangEqual => .ok (some (.boolean (!cellEq left right)))
  | .equalEqual => .ok (some (.boolean (cellEq left right)))
  | _ => .error (.hostPanic "unreachable")

end Lox

namespace Lox

/- The AST (`expr.rs`/`stmt.rs`, in the iteration the parser, resolver and
interpreter consume, i.e. with `This`, `Super`, `Get`, `Set` and class
declarations).  In Rust the resolver keys its distance map on each node's
address (`*const Expr`); the nodes that are ever used as keys (`Variable`,
`Assignment`, `This`, `Super`) therefore carry an explicit identity `id`
here, standing for that address. -/
mutual

/-- Expressions (`expr.rs`). -/
inductive Expr where
  | literal (value : Cell)
  | grouping (e : Expr)
  | unary (operator : Token) (operand : Expr)
  | binary (left : Expr) (operator : Token) (right : Expr)
  | logical (left : Expr) (operator : Token) (right : Expr)
  | ternary (condition thenExpr elseExpr : Expr)
  | var (id : Nat) (name : Token)
  | assignment (id : Nat) (name : Token) (value : Expr)
  | call (callee : Expr) (paren : Token) (arguments : List Expr)
  | get (object : Expr) (name : Token)
  | set (object : Expr) (name : Token) (value : Expr)
  | this (id : Nat) (keyword : Token)
  | super (id : Nat) (keyword : Token) (method : Token)
  | function (f : FunctionExpr)

/-- Function literals (`expr.rs` `Function`). -/
inductive FunctionExpr where
  | mk (name : Option Token) (params : List Token) (body : List Stmt)

/-- Statements (`stmt.rs`). -/
inductive Stmt where
  | block (stmts : List Stmt)
  | expr (e : Expr)
  | if_ (condition : Expr) (thenBranch : Stmt) (elseBranch : Option Stmt)
  | return_ (keyword : Token) (e : Option Expr)
  | while_ (condition : Expr) (body : Stmt)
  | varDeclaration (name : Token) (initializer : Option Expr)
  | class_ (name : Token) (superclass : Option Expr) (methods : List FunctionExpr)

end

/-- `expr::Function::name`. -/
def FunctionExpr.name : FunctionExpr → Option Token
  | .mk name _ _ => name

/-- `expr::Function::parameters`. -/
def FunctionExpr.params : FunctionExpr → List Token
  | .mk _ params _ => params

/-- `expr::Function::body`. -/
def FunctionExpr.body : FunctionExpr → List Stmt
  | .mk _ _ body => body

/-- `Expr::as_variable`. -/
def Expr.asVariable : Expr → Option Token
  | .var _ name => some name
  | _ => none

/-- A user function object (`function.rs` `Function`): parameters, body, the
captured closure frame, and the initializer flag. -/
structure FunRec where
  name : Option Token
  params : List Token
  body : List Stmt
  closure : Nat
  isInitializer : Bool

/-- An entry of the callable store: what a `Value.function` index points to —
one of the two native functions (`native.rs`) or a user `Function`. -/
inductive FunObj where
  | clock
  | print
  | user (f : FunRec)

/-- `class.rs` `Class`: name, optional superclass index, and the method
table mapping method name to the shared `Function` object's index. -/
structure ClassRec where
  name : String
  superclass : Option Nat
  methods : List (String × Nat)

/-- `class.rs` `Instance`: its class and the mutable field table. -/
structure InstRec where
  cls : Nat
  fields : List (String × Cell)

/-- The interpreter's mutable world: the environment store, the three object
stores (standing for the Rust heap of `Rc` allocations), and the output sink.
`envs[0]` is the globals frame. -/
structure St where
  envs : EnvStore
  funs : List FunObj
  classes : List ClassRec
  insts : List InstRec
  output : List String

/-- The read-only context the evaluator consults: the resolver's distance
map (`Interpreter::locals`), keyed by expression identity. -/
structure Ctx where
  locals : List (Nat × Nat)

/-- `Class::find_method` (class.rs lines 38-44): own table first, then the
superclass chain.  Fuelled: a cyclic superclass chain is impossible for
reachable stores (a superclass value always exists before the subclass). -/
def findMethodAux (s : St) (name : String) : Nat → Nat → Option Nat
  | 0, _ => none
  | fuel + 1, cid =>
    match s.classes.get? cid with
    | none => none
    | some c =>
      match c.methods.lookup name with
      | some f => some f
      | none =>
        match c.superclass with
        | some sup => findMethodAux s name fuel sup
        | none => none

/-- `Class::find_method` on class index `cid`. -/
def findMethod (s : St) (cid : Nat) (name : String) : Option Nat :=
  findMethodAux s name (s.classes.length + 1) cid

/-- Arity of the callable at function-store index `fid` (`Callable::arity`
for `Clock`, `Print` and user `Function`s; a dangling index — impossible in
reachable stores — defaults to 0). -/
def funArity (s : St) (fid : Nat) : Nat :=
  match s.funs.get? fid with
  | some .clock => 0
  | some .print => 1
  | some (.user f) => f.params.length
  | none => 0

/-- `impl Callable for Class`, `arity` (class.rs lines 48-54): the `init`
method's arity when found on the class or its superclass chain, else 0. -/
def classArity (s : St) (cid : Nat) : Nat :=
  match findMethod s cid "init" with
  | some initId => funArity s initId
  | none => 0

/-- The callable extracted from a callee cell by
`TryFrom<Cell> for Rc<dyn Callable>` (value.rs lines 130-144): a function
value or a class value. -/
inductive CallableVal where
  | fn (id : Nat)
  | cls (id : Nat)
  deriving DecidableEq, Repr

/-- `TryFrom<Cell> for Rc<dyn Callable>`: functions and classes qualify,
anything else is the "Can only call functions and classes." runtime error
(raised via `From<String>`, so with no token attached). -/
def tryCallable : Cell → Except RuntimeErr CallableVal
  | some (.function id) => .ok (.fn id)
  | some (.class_ id) => .ok (.cls id)
  | _ => .error ⟨none, "Can only call functions and classes."⟩

/-- `Callable::arity` through the `dyn Callable` handle. -/
def callableArity (s : St) : CallableVal → Nat
  | .fn id => funArity s id
  | .cls id => classArity s id

/-- `Function::bind` (function.rs lines 41-54): layer a fresh frame holding
only `this ↦ instance` on top of the method's closure, and allocate a new
`Function` sharing name/params/body but closing over that fresh frame.
`none` models calling it on a dangling or non-user index (impossible in
reachable stores). -/
def bindFn (s : St) (fid : Nat) (inst : Nat) : Option (Nat × St) :=
  match s.funs.get? fid with
  | some (.user f) =>
    let envId := s.envs.length
    let s1 :=
      { s with envs :=
          s.envs ++ [(⟨some f.closure, [("this", some (.instance_ inst))]⟩ : EnvRec)] }
    let newId := s1.funs.length
    some (newId, { s1 with funs := s1.funs ++ [FunObj.user { f with closure := envId }] })
  | _ => none

/-- `Instance::get` (class.rs lines 95-107): fields first, then the class's
method table (with inheritance), binding a found method to this instance;
otherwise the "Undefined property" runtime error.  The state may grow
because binding allocates. -/
def instanceGet (s : St) (iid : Nat) (name : Token) : Except Fault Cell × St :=
  match s.insts.get? iid with
  | none => (.error (.hostPanic "dangling instance"), s)
  | some inst =>
    match inst.fields.lookup name.lexeme with
    | some value => (.ok value, s)
    | none =>
      match findMethod s inst.cls name.lexeme with
      | some mid =>
        match bindFn s mid iid with
        | some (bound, s1) => (.ok (some (.function bound)), s1)
        | none => (.error (.hostPanic "dangling function"), s)
      | none =>
        (.error (.runtimeError (.new name ("Undefined property '" ++ name.lexeme ++ "'."))), s)

/-- `Instance::set` (class.rs lines 109-111): always writes the field table. -/
def instanceSet (s : St) (iid : Nat) (name : Token) (value : Cell) : St :=
  match s.insts.get? iid with
  | none => s
  | some inst =>
    { s with insts := s.insts.set iid { inst with fields := alInsert inst.fields name.lexeme value } }

/-- The `Display` rendering of a cell (value.rs lines 172-184), used by the
`print` native.  Number formatting is modelled with `ℚ` representation
rather than `f64` formatting; the claims under study never inspect it. -/
def cellDisplay (s : St) : Cell → String
  | none => "nil"
  | some (.boolean b) => if b then "true" else "false"
  | some (.number n) => toString n
  | some (.string str) => str
  | some (.function id) => "<function@" ++ toString id ++ ">"
  | some (.class_ id) => ((s.classes.get? id).map ClassRec.name).getD ""
  | some (.instance_ id) =>
    (((s.insts.get? id).bind fun i => (s.classes.get? i.cls).map ClassRec.name).getD "")
      ++ " instance"

/-- `Interpreter::look_up_variable` (interpreter.rs lines 402-413): with a
resolved distance, `get_at` (whose failure is a panic); without one, a plain
`get` on the globals frame (whose failure is the reported "Undefined
variable" error). -/
def lookUpVariable (ctx : Ctx) (s : St) (name : Token) (id : Nat) (env : Nat) :
    Except Fault Cell :=
  match ctx.locals.lookup id with
  | some distance =>
    match getAt s.envs env distance name.lexeme with
    | some v => .ok v
    | none => .error (.hostPanic "key not found")
  | none => envGet s.envs 0 name

end Lox

namespace Lox

/-- Allocate `Function::new(method, method_env, name == "init")` for each
method literal of a class body and build the method table
(`Interpreter::execute_class_stmt`, interpreter.rs lines 430-439).  The
`expect("Method has a name")` on an anonymous method is a panic. -/
def allocMethods (methodEnv : Nat) :
    List FunctionExpr → List (String × Nat) → St → Except Fault (List (String × Nat) × St)
  | [], acc, s => .ok (acc, s)
  | m :: rest, acc, s =>
    match m.name with
    | none => .error (.hostPanic "Method has a name")
    | some tok =>
      let fid := s.funs.length
      allocMethods methodEnv rest (alInsert acc tok.lexeme fid)
        { s with funs :=
            s.funs ++ [FunObj.user ⟨m.name, m.params, m.body, methodEnv, tok.lexeme == "init"⟩] }

/- The evaluator (`Interpreter` in interpreter.rs together with
`Function::call` and `Class::call`).  Recursion depth in the Rust original
is bounded only by the host stack; the explicit `fuel` argument models that
stack, and running out of it is the fatal `hostPanic "stack overflow"`. -/
mutual

/-- `Interpreter::evaluate` and its per-variant helpers. -/
def evalExpr (fuel : Nat) (ctx : Ctx) (e : Expr) (env : Nat) (s : St) :
    Except Fault Cell × St :=
  match fuel with
  | 0 => (.error (.hostPanic "stack overflow"), s)
  | fuel + 1 =>
    match e with
    | .literal value => (.ok value, s)
    | .grouping inner => evalExpr fuel ctx inner env s
    | .unary operator operand =>
      match evalExpr fuel ctx operand env s with
      | (.error f, s1) => (.error f, s1)
      | (.ok right, s1) =>
        match operator.kind with
        | .minus =>
          match checkNumberOperand operator right with
          | .error f => (.error f, s1)
          | .ok _ =>
            match right with
            | some (.number a) => (.ok (some (.number (-a))), s1)
            | _ => (.error (.runtimeError (.new operator "Expect number.")), s1)
        | .bang => (.ok (some (.boolean (!right.isTruthy))), s1)
        | _ => (.error (.hostPanic "unreachable"), s1)
    | .binary left operator right =>
      match evalExpr fuel ctx left env s with
      | (.error f, s1) => (.error f, s1)
      | (.ok l, s1) =>
        match evalExpr fuel ctx right env s1 with
        | (.error f, s2) => (.error f, s2)
        | (.ok r, s2) => (evaluateBinaryOp operator l r, s2)
    | .logical left operator right =>
      match evalExpr fuel ctx left env s with
      | (.error f, s1) => (.error f, s1)
      | (.ok l, s1) =>
        if operator.kind = .or then
          if l.isTruthy then (.ok l, s1) else evalExpr fuel ctx right env s1
        else if operator.kind = .and ∧ !l.isTruthy then (.ok l, s1)
        else evalExpr fuel ctx right env s1
    | .ternary condition thenExpr elseExpr =>
      match evalExpr fuel ctx condition env s with
      | (.error f, s1) => (.error f, s1)
      | (.ok c, s1) =>
        if c.isTruthy then evalExpr fuel ctx thenExpr env s1
        else evalExpr fuel ctx elseExpr env s1
    | .var id name => (lookUpVariable ctx s name id env, s)
    | .assignment id name value =>
      match evalExpr fuel ctx value env s with
      | (.error f, s1) => (.error f, s1)
      | (.ok v, s1) =>
        match ctx.locals.lookup id with
        | some distance =>
          match assingAt s1.envs env distance name.lexeme v with
          | some envs1 => (.ok v, { s1 with envs := envs1 })
          | none => (.error (.hostPanic "Environment exists"), s1)
        | none =>
          match envAssign s1.envs 0 name v with
          | .ok envs1 => (.ok v, { s1 with envs := envs1 })
          | .error f => (.error f, s1)
    | .call callee paren arguments =>
      match evalExpr fuel ctx callee env s with
      | (.error f, s1) => (.error f, s1)
      | (.ok calleeV, s1) =>
        match evalExprs fuel ctx arguments env s1 with
        | (.error f, s2) => (.error f, s2)
        | (.ok args, s2) =>
          match tryCallable calleeV with
          | .error e => (.error (.runtimeError e), s2)
          | .ok c =>
            if args.length ≠ callableArity s2 c then
              (.error (.runtimeError (.new paren
                ("Expected " ++ toString (callableArity s2 c) ++
                  " arguments but got " ++ toString args.length ++ "."))), s2)
            else callableCall fuel ctx c args s2
    | .get object name =>
      match evalExpr fuel ctx object env s with
      | (.error f, s1) => (.error f, s1)
      | (.ok obj, s1) =>
        match obj.asInstance with
        | some iid => instanceGet s1 iid name
        | none => (.error (.runtimeError ⟨none, "Only instances have properties."⟩), s1)
    | .set object name value =>
      match evalExpr fuel ctx object env s with
      | (.error f, s1) => (.error f, s1)
      | (.ok obj, s1) =>
        match obj.asInstance with
        | none => (.error (.runtimeError ⟨none, "Only instances have properties."⟩), s1)
        | some iid =>
          match evalExpr fuel ctx value env s1 with
          | (.error f, s2) => (.error f, s2)
          | (.ok v, s2) => (.ok v, instanceSet s2 iid name v)
    | .this id keyword => (lookUpVariable ctx s keyword id env, s)
    | .super id _keyword method =>
      match ctx.locals.lookup id with
      | none => (.error (.hostPanic "unwrap on None"), s)
      | some distance =>
        match getAt s.envs env distance "super" with
        | none => (.error (.hostPanic "key not found"), s)
        | some superCell =>
          match superCell.asClass with
          | none => (.error (.hostPanic "unwrap on None"), s)
          | some scid =>
            match getAt s.envs env (distance - 1) "this" with
            | none => (.error (.hostPanic "key not found"), s)
            | some objCell =>
              match objCell.asInstance with
              | none => (.error (.hostPanic "unwrap on None"), s)
              | some iid =>
                match findMethod s scid method.lexeme with
                | none => (.error (.runtimeError (.new method
                    ("Undefined property '" ++ method.lexeme ++ "'."))), s)
                | some mid =>
                  match bindFn s mid iid with
                  | some (bound, s1) => (.ok (some (.function bound)), s1)
                  | none => (.error (.hostPanic "dangling function"), s)
    | .function f =>
      let fid := s.funs.length
      (.ok (some (.function fid)),
       { s with funs := s.funs ++ [FunObj.user ⟨f.name, f.params, f.body, env, false⟩] })
termination_by structural fuel

/-- `Interpreter::evaluate_exprs`: left-to-right, stopping at the first
failure. -/
def evalExprs (fuel : Nat) (ctx : Ctx) (es : List Expr) (env : Nat) (s : St) :
    Except Fault (List Cell) × St :=
  match fuel, es with
  | _, [] => (.ok [], s)
  | 0, _ :: _ => (.error (.hostPanic "stack overflow"), s)
  | fuel + 1, e :: rest =>
    match evalExpr fuel ctx e env s with
    | (.error f, s1) => (.error f, s1)
    | (.ok v, s1) =>
      match evalExprs fuel ctx rest env s1 with
      | (.error f, s2) => (.error f, s2)
      | (.ok vs, s2) => (.ok (v :: vs), s2)
termination_by structural fuel

/-- `Interpreter::execute` and its per-variant helpers. -/
def execStmt (fuel : Nat) (ctx : Ctx) (stmt : Stmt) (env : Nat) (s : St) :
    Except Fault Unit × St :=
  match fuel with
  | 0 => (.error (.hostPanic "stack overflow"), s)
  | fuel + 1 =>
    match stmt with
    | .block stmts =>
      let envId := s.envs.length
      let s1 := { s with envs := s.envs ++ [(⟨some env, []⟩ : EnvRec)] }
      execBlock fuel ctx stmts envId s1
    | .expr e =>
      match evalExpr fuel ctx e env s with
      | (.error f, s1) => (.error f, s1)
      | (.ok _, s1) => (.ok (), s1)
    | .if_ condition thenBranch elseBranch =>
      match evalExpr fuel ctx condition env s with
      | (.error f, s1) => (.error f, s1)
      | (.ok c, s1) =>
        if c.isTruthy then execStmt fuel ctx thenBranch env s1
        else
          match elseBranch with
          | some alt => execStmt fuel ctx alt env s1
          | none => (.ok (), s1)
    | .return_ _keyword e =>
      match e with
      | some value =>
        match evalExpr fuel ctx value env s with
        | (.error f, s1) => (.error f, s1)
        | (.ok v, s1) => (.error (.ret v), s1)
      | none => (.error (.ret none), s)
    | .while_ condition body =>
      match evalExpr fuel ctx condition env s with
      | (.error f, s1) => (.error f, s1)
      | (.ok c, s1) =>
        if c.isTruthy then
          match execStmt fuel ctx body env s1 with
          | (.error f, s2) => (.error f, s2)
          | (.ok _, s2) => execStmt fuel ctx (.while_ condition body) env s2
        else (.ok (), s1)
    | .varDeclaration name initializer =>
      match initializer with
      | some init =>
        match evalExpr fuel ctx init env s with
        | (.error f, s1) => (.error f, s1)
        | (.ok v, s1) => (.ok (), { s1 with envs := envDefine s1.envs env name.lexeme v })
      | none => (.ok (), { s with envs := envDefine s.envs env name.lexeme none })
    | .class_ name superclass methods =>
      match superclass with
      | some scExpr =>
        match evalExpr fuel ctx scExpr env s with
        | (.error f, s1) => (.error f, s1)
        | (.ok sc, s1) =>
          match sc.asClass with
          | some scId => finishClassStmt ctx name (some scId) methods env s1
          | none =>
            match scExpr.asVariable with
            | some tok =>
              (.error (.runtimeError (.new tok "Superclass must be a class.")), s1)
            | none => (.error (.hostPanic "Expect class identifier."), s1)
      | none => finishClassStmt ctx name none methods env s
termination_by structural fuel

/-- The second half of `Interpreter::execute_class_stmt` after the
superclass value has been obtained: define the name as `nil`, build the
method environment (binding `super` in a fresh frame when a superclass
exists), allocate the methods and the class, then assign the class value. -/
def finishClassStmt (ctx : Ctx) (name : Token) (sup : Option Nat)
    (methods : List FunctionExpr) (env : Nat) (s : St) : Except Fault Unit × St :=
  let s2 := { s with envs := envDefine s.envs env name.lexeme none }
  let methodEnvAlloc : Nat × St :=
    match sup with
    | some scId =>
      (s2.envs.length,
       { s2 with envs := s2.envs ++ [(⟨some env, [("super", some (.class_ scId))]⟩ : EnvRec)] })
    | none => (env, s2)
  match allocMethods methodEnvAlloc.1 methods [] methodEnvAlloc.2 with
  | .error f => (.error f, methodEnvAlloc.2)
  | .ok (methodList, s4) =>
    let cid := s4.classes.length
    let s5 := { s4 with classes := s4.classes ++ [(⟨name.lexeme, sup, methodList⟩ : ClassRec)] }
    match envAssign s5.envs env name (some (.class_ cid)) with
    | .ok envs1 => (.ok (), { s5 with envs := envs1 })
    | .error f => (.error f, s5)

/-- `ExecutionContext::execute_block` (interpreter.rs lines 569-578):
sequential execution, propagating the first abnormal result unchanged. -/
def execBlock (fuel : Nat) (ctx : Ctx) (stmts : List Stmt) (env : Nat) (s : St) :
    Except Fault Unit × St :=
  match fuel, stmts with
  | _, [] => (.ok (), s)
  | 0, _ :: _ => (.error (.hostPanic "stack overflow"), s)
  | fuel + 1, stmt :: rest =>
    match execStmt fuel ctx stmt env s with
    | (.error f, s1) => (.error f, s1)
    | (.ok _, s1) => execBlock fuel ctx rest env s1
termination_by structural fuel

/-- `Callable::call` dispatch through the `dyn Callable` handle produced by
`TryFrom`. -/
def callableCall (fuel : Nat) (ctx : Ctx) (c : CallableVal) (args : List Cell) (s : St) :
    Except Fault Cell × St :=
  match fuel, c with
  | 0, _ => (.error (.hostPanic "stack overflow"), s)
  | fuel + 1, .fn id => funCallById fuel ctx id args s
  | fuel + 1, .cls id => classCall fuel ctx id args s
termination_by structural fuel

/-- Calling the callable stored at index `fid`: the `clock` native (wall
clock time is outside the model and rendered as 0), the `print` native
(appends one line to the output sink), or a user function. -/
def funCallById (fuel : Nat) (ctx : Ctx) (fid : Nat) (args : List Cell) (s : St) :
    Except Fault Cell × St :=
  match fuel with
  | 0 => (.error (.hostPanic "stack overflow"), s)
  | fuel + 1 =>
    match s.funs.get? fid with
    | none => (.error (.hostPanic "dangling function"), s)
    | some .clock => (.ok (some (.number 0)), s)
    | some .print =>
      match args.head? with
      | some c => (.ok none, { s with output := s.output ++ [cellDisplay s c] })
      | none => (.error (.hostPanic "index out of bounds"), s)
    | some (.user f) => functionCall fuel ctx f args s
termination_by structural fuel

/-- `Function::call` (function.rs lines 62-87): fresh frame over the
closure, parameters bound in order, body run as a block; `Return` control
flow is unwrapped into the result — except for an initializer, which reads
`this` back out of its own closure frame (`get_at(0, "this")`, a panic if
absent) both on early return and on normal completion. -/
def functionCall (fuel : Nat) (ctx : Ctx) (f : FunRec) (args : List Cell) (s : St) :
    Except Fault Cell × St :=
  match fuel with
  | 0 => (.error (.hostPanic "stack overflow"), s)
  | fuel + 1 =>
    if args.length < f.params.length then
      (.error (.hostPanic "index out of bounds"), s)
    else
      let envId := s.envs.length
      let vals := (f.params.zip args).foldl (fun vs pa => alInsert vs pa.1.lexeme pa.2) []
      let s1 := { s with envs := s.envs ++ [(⟨some f.closure, vals⟩ : EnvRec)] }
      match execBlock fuel ctx f.body envId s1 with
      | (.error (.ret value), s2) =>
        if f.isInitializer then
          match getAt s2.envs f.closure 0 "this" with
          | some v => (.ok v, s2)
          | none => (.error (.hostPanic "key not found"), s2)
        else (.ok value, s2)
      | (.error f1, s2) => (.error f1, s2)
      | (.ok _, s2) =>
        if f.isInitializer then
          match getAt s2.envs f.closure 0 "this" with
          | some v => (.ok v, s2)
          | none => (.error (.hostPanic "key not found"), s2)
        else (.ok none, s2)
termination_by structural fuel

/-- `impl Callable for Class`, `call` (class.rs lines 56-68): allocate a
fresh instance, and when an `init` method is found (own table or superclass
chain) bind it to the instance and call it, propagating only its failures;
the call's value is the fresh instance itself, whatever `init` produced. -/
def classCall (fuel : Nat) (ctx : Ctx) (cid : Nat) (args : List Cell) (s : St) :
    Except Fault Cell × St :=
  match fuel with
  | 0 => (.error (.hostPanic "stack overflow"), s)
  | fuel + 1 =>
    let iid := s.insts.length
    let s1 := { s with insts := s.insts ++ [(⟨cid, []⟩ : InstRec)] }
    match findMethod s1 cid "init" with
    | some initId =>
      match bindFn s1 initId iid with
      | none => (.error (.hostPanic "dangling function"), s1)
      | some (bound, s2) =>
        match funCallById fuel ctx bound args s2 with
        | (.ok _, s3) => (.ok (some (.instance_ iid)), s3)
        | (.error f, s3) => (.error f, s3)
    | none => (.ok (some (.instance_ iid)), s1)
termination_by structural fuel

end

/-- Outcome of `Interpreter::interpret`: either the loop finished (having
reported at most one runtime error, after which it stops) or the host
process aborted on a panic. -/
inductive InterpResult where
  | done (reported : Option RuntimeErr)
  | panicked (msg : String)
  deriving DecidableEq, Repr

/-- `Interpreter::interpret` (interpreter.rs lines 59-67): execute the
statements against the globals frame; on `ControlFlow::RuntimeError` report
it and return (the remaining statements never run, the host survives); note
a stray top-level `Return` is silently skipped by the `if let`. -/
def interpret (fuel : Nat) (ctx : Ctx) : List Stmt → St → InterpResult × St
  | [], s => (.done none, s)
  | stmt :: rest, s =>
    match execStmt fuel ctx stmt 0 s with
    | (.error (.runtimeError e), s1) => (.done (some e), s1)
    | (.error (.hostPanic m), s1) => (.panicked m, s1)
    | (.error (.ret _), s1) => interpret fuel ctx rest s1
    | (.ok _, s1) => interpret fuel ctx rest s1

/-- `Interpreter::new_with_output` + `define_native_functions`: the initial
world has only the globals frame, with `clock` and `print` pre-registered. -/
def initSt : St :=
  { envs := [⟨none, [("clock", some (.function 0)), ("print", some (.function 1))]⟩]
    funs := [.clock, .print]
    classes := []
    insts := []
    output := [] }

end Lox

namespace Lox

/-- Constructor tag of a runtime value, for stating cross-type facts. -/
def valueTag : Value → Nat
  | .boolean _ => 0
  | .number _ => 1
  | .string _ => 2
  | .function _ => 3
  | .class_ _ => 4
  | .instance_ _ => 5

/-- C4 counterexample: the claim says a value compared with itself by `==`
is equal when it is an instance, but `impl PartialEq for Value` has no
`Instance` arm, so an instance compared with itself falls into the
catch-all `_ => false`: evaluating `==` on one and the same instance yields
`false` (and likewise for a class value). -/
theorem C4_counterexample :
    evaluateBinaryOp ⟨.equalEqual, "==", 1⟩
        (some (.instance_ 0)) (some (.instance_ 0)) = .ok (some (.boolean false)) ∧
    valueEq (.instance_ 0) (.instance_ 0) = false ∧
    valueEq (.class_ 0) (.class_ 0) = false := by
  refine ⟨rfl, rfl, rfl⟩

/-- C4 (amended): runtime `==`/`!=` are total over all value pairs and never
an error — `==` evaluates to the boolean `cellEq` and `!=` to its negation;
equality is structural for nil, booleans, numbers and strings, and
identity-based for function values; however any comparison involving a
class value or an instance (even with itself) is unequal, and any
cross-type comparison is simply unequal. -/
theorem C4_equality_semantics :
    (∀ t : Token, t.kind = .equalEqual →
      ∀ l r : Cell, evaluateBinaryOp t l r = .ok (some (.boolean (cellEq l r)))) ∧
    (∀ t : Token, t.kind = .bangEqual →
      ∀ l r : Cell, evaluateBinaryOp t l r = .ok (some (.boolean (!cellEq l r)))) ∧
    cellEq none none = true ∧
    (∀ v : Value, cellEq none (some v) = false ∧ cellEq (some v) none = false) ∧
    (∀ a b : Bool, valueEq (.boolean a) (.boolean b) = (a == b)) ∧
    (∀ a b : ℚ, valueEq (.number a) (.number b) = (a == b)) ∧
    (∀ a b : String, valueEq (.string a) (.string b) = (a == b)) ∧
    (∀ i j : Nat, valueEq (.function i) (.function j) = (i == j)) ∧
    (∀ i j : Nat, valueEq (.instance_ i) (.instance_ j) = false) ∧
    (∀ i j : Nat, valueEq (.class_ i) (.class_ j) = false) ∧
    (∀ v w : Value, valueTag v ≠ valueTag w → valueEq v w = false) := by
  refine ⟨?_, ?_, rfl, ?_, ?_, ?_, ?_, ?_, ?_, ?_, ?_⟩
  · rintro ⟨k, lx, ln⟩ hk l r
    cases hk
    rfl
  · rintro ⟨k, lx, ln⟩ hk l r
    cases hk
    rfl
  · intro v
    exact ⟨rfl, rfl⟩
  · intro a b
    rfl
  · intro a b
    rfl
  · intro a b
    rfl
  · intro i j
    rfl
  · intro i j
    rfl
  · intro i j
    rfl
  · intro v w h
    cases v <;> cases w <;> first | rfl | exact absurd rfl h

/-- C4 witness: the amended theorem applied at concrete inputs — a
cross-type comparison (`1 == "1"`) evaluates to `false`, not an error. -/
theorem C4_witness :
    evaluateBinaryOp ⟨.equalEqual, "==", 1⟩
        (some (.number 1)) (some (.string "1")) = .ok (some (.boolean false)) := by
  have h := C4_equality_semantics
  have hcross := h.2.2.2.2.2.2.2.2.2.2 (.number 1) (.string "1") (by decide)
  have heq := h.1 ⟨.equalEqual, "==", 1⟩ rfl (some (.number 1)) (some (.string "1"))
  rw [heq]
  simp [cellEq, hcross]

/-- C2 counterexample: the claim fixes the mixed-operand error message as
"Operands must be two numbers or two strings.", but the source (interpreter.rs
line 288) spells it "Operands must be two numbers or two string.", so
`"1" + 2` fails with a different message than claimed. -/
theorem C2_counterexample :
    evaluateBinaryOp ⟨.plus, "+", 1⟩ (some (.string "1")) (some (.number 2)) =
      .error (.runtimeError
        ⟨some ⟨.plus, "+", 1⟩, "Operands must be two numbers or two string."⟩) ∧
    "Operands must be two numbers or two string." ≠
      "Operands must be two numbers or two strings." := by
  exact ⟨rfl, by decide⟩

/-- C2 (amended): binary `+` on two numbers is their sum, on two strings
their concatenation, and on any other pairing a runtime error whose message
is exactly "Operands must be two numbers or two string." (sic) carrying the
operator token. -/
theorem C2_plus_polymorphism (t : Token) (h : t.kind = .plus) :
    (∀ a b : ℚ, evaluateBinaryOp t (some (.number a)) (some (.number b)) =
      .ok (some (.number (a + b)))) ∧
    (∀ a b : String, evaluateBinaryOp t (some (.string a)) (some (.string b)) =
      .ok (some (.string (a ++ b)))) ∧
    (∀ l r : Cell, (l.isNumber && r.isNumber) = false → (l.isString && r.isString) = false →
      evaluateBinaryOp t l r =
        .error (.runtimeError ⟨some t, "Operands must be two numbers or two string."⟩)) := by
  obtain ⟨k, lx, ln⟩ := t
  cases h
  refine ⟨fun a b => rfl, fun a b => rfl, ?_⟩
  intro l r hn hs
  simp only [evaluateBinaryOp, hn, hs, Bool.false_eq_true, if_false]
  rfl

/-- C2 witness: `1 + 2` yields `3`, `"a" + "b"` yields `"ab"`, and
`"1" + 2` fails with the (sic) message, all via the amended theorem. -/
theorem C2_witness :
    evaluateBinaryOp ⟨.plus, "+", 1⟩ (some (.number 1)) (some (.number 2)) =
      .ok (some (.number 3)) ∧
    evaluateBinaryOp ⟨.plus, "+", 1⟩ (some (.string "a")) (some (.string "b")) =
      .ok (some (.string "ab")) ∧
    evaluateBinaryOp ⟨.plus, "+", 1⟩ (some (.string "1")) (some (.number 2)) =
      .error (.runtimeError
        ⟨some ⟨.plus, "+", 1⟩, "Operands must be two numbers or two string."⟩) := by
  have h := C2_plus_polymorphism ⟨.plus, "+", 1⟩ rfl
  refine ⟨?_, ?_, ?_⟩
  · have := h.1 1 2
    norm_num at this
    exact this
  · have := h.2.1 "a" "b"
    simpa using this
  · exact h.2.2 (some (.string "1")) (some (.number 2)) rfl rfl

end Lox

namespace Lox

/-- C8: exactly `nil` and `false` are falsy (every number — including 0 —
and every string — including "" — is truthy), and `and`/`or` short-circuit:
when the left operand decides, its value is returned and the right operand
is never evaluated (the resulting state is exactly the post-left state);
otherwise the result is whatever the right operand evaluates to — the
last-evaluated operand's value, of any type. -/
theorem C8_logical_short_circuit :
    (∀ c : Cell, c.isTruthy = false ↔ (c = none ∨ c = some (.boolean false))) ∧
    (∀ q : ℚ, Cell.isTruthy (some (.number q)) = true) ∧
    (∀ str : String, Cell.isTruthy (some (.string str)) = true) ∧
    (∀ fuel ctx l (t : Token) r env s v s1, t.kind = .or →
      evalExpr fuel ctx l env s = (.ok v, s1) → v.isTruthy = true →
      evalExpr (fuel + 1) ctx (.logical l t r) env s = (.ok v, s1)) ∧
    (∀ fuel ctx l (t : Token) r env s v s1, t.kind = .or →
      evalExpr fuel ctx l env s = (.ok v, s1) → v.isTruthy = false →
      evalExpr (fuel + 1) ctx (.logical l t r) env s = evalExpr fuel ctx r env s1) ∧
    (∀ fuel ctx l (t : Token) r env s v s1, t.kind = .and →
      evalExpr fuel ctx l env s = (.ok v, s1) → v.isTruthy = false →
      evalExpr (fuel + 1) ctx (.logical l t r) env s = (.ok v, s1)) ∧
    (∀ fuel ctx l (t : Token) r env s v s1, t.kind = .and →
      evalExpr fuel ctx l env s = (.ok v, s1) → v.isTruthy = true →
      evalExpr (fuel + 1) ctx (.logical l t r) env s = evalExpr fuel ctx r env s1) := by
  refine ⟨?_, fun q => rfl, fun str => rfl, ?_, ?_, ?_, ?_⟩
  · intro c
    match c with
    | none => simp [Cell.isTruthy]
    | some (.boolean b) => cases b <;> simp [Cell.isTruthy]
    | some (.number q) => simp [Cell.isTruthy]
    | some (.string str) => simp [Cell.isTruthy]
    | some (.function i) => simp [Cell.isTruthy]
    | some (.class_ i) => simp [Cell.isTruthy]
    | some (.instance_ i) => simp [Cell.isTruthy]
  · intro fuel ctx l t r env s v s1 hk hl ht
    simp [evalExpr, hl, hk, ht]
  · intro fuel ctx l t r env s v s1 hk hl ht
    simp [evalExpr, hl, hk, ht]
  · intro fuel ctx l t r env s v s1 hk hl ht
    simp [evalExpr, hl, hk, ht]
  · intro fuel ctx l t r env s v s1 hk hl ht
    simp [evalExpr, hl, hk, ht]

/-- C8 witness: `nil or "yes"` evaluates the right operand and yields the
string `"yes"` (not a boolean); `"hi" and 2` yields the right operand `2`;
`"hi" or 2` yields `"hi"` without touching the right operand — obtained by
applying the short-circuit theorem at concrete literals. -/
theorem C8_witness :
    evalExpr 2 ⟨[]⟩ (.logical (.literal none) ⟨.or, "or", 1⟩
        (.literal (some (.string "yes")))) 0 initSt =
      (.ok (some (.string "yes")), initSt) ∧
    evalExpr 2 ⟨[]⟩ (.logical (.literal (some (.string "hi"))) ⟨.and, "and", 1⟩
        (.literal (some (.number 2)))) 0 initSt =
      (.ok (some (.number 2)), initSt) ∧
    evalExpr 2 ⟨[]⟩ (.logical (.literal (some (.string "hi"))) ⟨.or, "or", 1⟩
        (.literal (some (.number 2)))) 0 initSt =
      (.ok (some (.string "hi")), initSt) := by
  have h := C8_logical_short_circuit
  refine ⟨?_, ?_, ?_⟩
  · rw [h.2.2.2.2.1 1 ⟨[]⟩ (.literal none) ⟨.or, "or", 1⟩
      (.literal (some (.string "yes"))) 0 initSt none initSt rfl rfl rfl]
    rfl
  · rw [h.2.2.2.2.2.2 1 ⟨[]⟩ (.literal (some (.string "hi"))) ⟨.and, "and", 1⟩
      (.literal (some (.number 2))) 0 initSt (some (.string "hi")) initSt rfl rfl rfl]
    rfl
  · exact h.2.2.2.1 1 ⟨[]⟩ (.literal (some (.string "hi"))) ⟨.or, "or", 1⟩
      (.literal (some (.number 2))) 0 initSt (some (.string "hi")) initSt rfl rfl rfl

end Lox

namespace Lox

/-- C10 counterexample: the claim says `assign_at` panics when the ancestor
frame does not bind the name, but `assing_at` uses `HashMap::insert`, which
simply creates the binding: on a one-frame chain that does not bind "x",
`assing_at(0, "x", 1)` succeeds (no panic) and inserts the binding. -/
theorem C10_counterexample :
    assingAt [⟨none, []⟩] 0 0 "x" (some (.number 1)) =
      some [⟨none, [("x", some (.number 1))]⟩] := rfl

/-- C10 (amended): `get_at` panics exactly when the chain has fewer than
`distance` ancestors or the ancestor frame does not bind the name, while
`assign_at` panics only in the chain-too-short case (an unbound name is
simply inserted); under the resolver-established precondition — the ancestor
frame at the recorded distance exists and binds the name — both are
panic-free; and `look_up_variable` with a recorded distance can never
produce a reported runtime error, while its no-distance path is exactly the
globals chain walk, whose only reported error is "Undefined variable". -/
theorem C10_distance_ops :
    (∀ (s : EnvStore) e d n, ancestor s e d = none → getAt s e d n = none) ∧
    (∀ (s : EnvStore) e d n a env, ancestor s e d = some a → s.get? a = some env →
      env.values.lookup n = none → getAt s e d n = none) ∧
    (∀ (s : EnvStore) e d n a env v, ancestor s e d = some a → s.get? a = some env →
      env.values.lookup n = some v → getAt s e d n = some v) ∧
    (∀ (s : EnvStore) e d n v, ancestor s e d = none → assingAt s e d n v = none) ∧
    (∀ (s : EnvStore) e d n v a, ancestor s e d = some a →
      assingAt s e d n v = some (match s.get? a with
        | some env => s.set a { env with values := alInsert env.values n v }
        | none => s)) ∧
    (∀ ctx (s : St) name id env d, ctx.locals.lookup id = some d →
      ∀ er, lookUpVariable ctx s name id env ≠ .error (.runtimeError er)) ∧
    (∀ ctx (s : St) name id env d a envr v, ctx.locals.lookup id = some d →
      ancestor s.envs env d = some a → s.envs.get? a = some envr →
      envr.values.lookup name.lexeme = some v →
      lookUpVariable ctx s name id env = .ok v) ∧
    (∀ ctx (s : St) name id env, ctx.locals.lookup id = none →
      lookUpVariable ctx s name id env = envGet s.envs 0 name) ∧
    (∀ (s : EnvStore) (name : Token) fuel e er,
      envGetAux s name fuel e = .error (.runtimeError er) →
      er = RuntimeErr.new name ("Undefined variable '" ++ name.lexeme ++ "'.")) := by
  refine ⟨?_, ?_, ?_, ?_, ?_, ?_, ?_, ?_, ?_⟩
  · intro s e d n h
    simp [getAt, h]
  · intro s e d n a env h1 h2 h3
    rw [List.get?_eq_getElem?] at h2
    simp [getAt, h1, h2, h3]
  · intro s e d n a env v h1 h2 h3
    rw [List.get?_eq_getElem?] at h2
    simp [getAt, h1, h2, h3]
  · intro s e d n v h
    simp [assingAt, h]
  · intro s e d n v a h
    simp [assingAt, h]
  · intro ctx s name id env d hd er
    simp only [lookUpVariable, hd]
    cases hga : getAt s.envs env d name.lexeme <;> simp [hga]
  · intro ctx s name id env d a envr v hd h1 h2 h3
    rw [List.get?_eq_getElem?] at h2
    simp [lookUpVariable, hd, getAt, h1, h2, h3]
  · intro ctx s name id env hd
    simp [lookUpVariable, hd]
  · intro s name fuel
    induction fuel with
    | zero => intro e er h; simp [envGetAux] at h
    | succ fuel ih =>
      intro e er h
      simp only [envGetAux] at h
      split at h
      · simp at h
      · split at h
        · simp at h
        · split at h
          · exact ih _ er h
          · simp only [Except.error.injEq, Fault.runtimeError.injEq] at h
            exact h.symm

/-- C10 witness: on a concrete one-frame store binding "x", a resolved
distance of 0 makes `look_up_variable` return the bound value via `get_at`. -/
theorem C10_witness :
    lookUpVariable ⟨[(5, 0)]⟩
        ⟨[⟨none, [("x", some (.number 7))]⟩], [], [], [], []⟩
        ⟨.identifier, "x", 1⟩ 5 0 = .ok (some (.number 7)) := by
  exact C10_distance_ops.2.2.2.2.2.2.1 ⟨[(5, 0)]⟩
    ⟨[⟨none, [("x", some (.number 7))]⟩], [], [], [], []⟩
    ⟨.identifier, "x", 1⟩ 5 0 0 0 ⟨none, [("x", some (.number 7))]⟩
    (some (.number 7)) rfl rfl rfl rfl

end Lox

namespace Lox

/-- `find_method` only consults the class store, so any state change that
leaves `classes` untouched leaves it unchanged. -/
theorem findMethodAux_congr (s1 s2 : St) (h : s1.classes = s2.classes)
    (name : String) : ∀ fuel cid, findMethodAux s1 name fuel cid = findMethodAux s2 name fuel cid := by
  intro fuel
  induction fuel with
  | zero => intro cid; rfl
  | succ fuel ih =>
    intro cid
    simp only [findMethodAux, h, ih]

/-- `find_method` congruence at the entry point. -/
theorem findMethod_congr (s1 s2 : St) (h : s1.classes = s2.classes)
    (cid : Nat) (name : String) : findMethod s1 cid name = findMethod s2 cid name := by
  unfold findMethod
  rw [h]
  exact findMethodAux_congr s1 s2 h name _ cid

/-- C5: calling a class allocates a fresh instance (at the next instance
index, of that class, with empty fields); when `init` is found on the class
or its superclass chain it is bound to the fresh instance and invoked with
exactly the call's arguments; any successful outcome of the call is the
fresh instance — regardless of what `init`'s body computed or returned —
and the class's arity is its `init`'s arity when `init` exists, else 0. -/
theorem C5_class_call_semantics (fuel : Nat) (ctx : Ctx) (cid : Nat)
    (args : List Cell) (s : St) :
    (∀ initId, findMethod s cid "init" = some initId →
      classArity s cid = funArity s initId) ∧
    (findMethod s cid "init" = none → classArity s cid = 0) ∧
    (∀ v s', classCall (fuel + 1) ctx cid args s = (.ok v, s') →
      v = some (.instance_ s.insts.length)) ∧
    (findMethod s cid "init" = none →
      classCall (fuel + 1) ctx cid args s =
        (.ok (some (.instance_ s.insts.length)),
         { s with insts := s.insts ++ [⟨cid, []⟩] })) ∧
    (∀ initId bound s2, findMethod s cid "init" = some initId →
      bindFn { s with insts := s.insts ++ [⟨cid, []⟩] } initId s.insts.length =
        some (bound, s2) →
      classCall (fuel + 1) ctx cid args s =
        (match funCallById fuel ctx bound args s2 with
         | (.ok _, s3) => (.ok (some (.instance_ s.insts.length)), s3)
         | (.error f, s3) => (.error f, s3))) := by
  have hcong : findMethod { s with insts := s.insts ++ [(⟨cid, []⟩ : InstRec)] } cid "init" =
      findMethod s cid "init" :=
    findMethod_congr { s with insts := s.insts ++ [(⟨cid, []⟩ : InstRec)] } s rfl cid "init"
  refine ⟨?_, ?_, ?_, ?_, ?_⟩
  · intro initId h
    simp [classArity, h]
  · intro h
    simp [classArity, h]
  · intro v s' h
    simp only [classCall] at h
    split at h
    · split at h
      · simp at h
      · split at h
        · simp only [Prod.mk.injEq, Except.ok.injEq] at h
          exact h.1.symm
        · simp at h
    · simp only [Prod.mk.injEq, Except.ok.injEq] at h
      exact h.1.symm
  · intro h
    simp only [classCall]
    rw [hcong, h]
  · intro initId bound s2 h hb
    simp only [classCall]
    rw [hcong, h]
    simp only [hb]

/-- C5 witness: a concrete class store with `init` inherited from a
superclass of arity 1, and a class without `init`: the arities are 1 and 0,
and calling the initless class yields its fresh instance. -/
theorem C5_witness :
    classArity ⟨[⟨none, []⟩],
        [.clock, .print, .user ⟨none, [⟨.identifier, "a", 1⟩], [], 0, true⟩],
        [⟨"Base", none, [("init", 2)]⟩, ⟨"Derived", some 0, []⟩, ⟨"Plain", none, []⟩],
        [], []⟩ 1 = 1 ∧
    classCall 1 ⟨[]⟩ 2 []
        ⟨[⟨none, []⟩],
         [.clock, .print, .user ⟨none, [⟨.identifier, "a", 1⟩], [], 0, true⟩],
         [⟨"Base", none, [("init", 2)]⟩, ⟨"Derived", some 0, []⟩, ⟨"Plain", none, []⟩],
         [], []⟩ =
      (.ok (some (.instance_ 0)),
       ⟨[⟨none, []⟩],
        [.clock, .print, .user ⟨none, [⟨.identifier, "a", 1⟩], [], 0, true⟩],
        [⟨"Base", none, [("init", 2)]⟩, ⟨"Derived", some 0, []⟩, ⟨"Plain", none, []⟩],
        [⟨2, []⟩], []⟩) := by
  constructor
  · have h := (C5_class_call_semantics 0 ⟨[]⟩ 1 []
      ⟨[⟨none, []⟩],
       [.clock, .print, .user ⟨none, [⟨.identifier, "a", 1⟩], [], 0, true⟩],
       [⟨"Base", none, [("init", 2)]⟩, ⟨"Derived", some 0, []⟩, ⟨"Plain", none, []⟩],
       [], []⟩).1 2 rfl
    rw [h]
    rfl
  · have h := (C5_class_call_semantics 0 ⟨[]⟩ 2 []
      ⟨[⟨none, []⟩],
       [.clock, .print, .user ⟨none, [⟨.identifier, "a", 1⟩], [], 0, true⟩],
       [⟨"Base", none, [("init", 2)]⟩, ⟨"Derived", some 0, []⟩, ⟨"Plain", none, []⟩],
       [], []⟩).2.2.2.1 rfl
    exact h

end Lox

namespace Lox

/-- C6: a call whose callee is a callable of arity N, invoked on M ≠ N
arguments (the callee evaluated first, then the arguments left-to-right,
stopping at the first failure), fails with the runtime error
"Expected N arguments but got M." carrying the closing-paren token, and the
callable's body is never entered — the resulting state is exactly the state
after argument evaluation; a runtime error from a statement makes
`interpret` report it and return at once, so the remaining statements of
the unit never execute while the host survives. -/
theorem C6_arity_mismatch (fuel : Nat) (ctx : Ctx) (callee : Expr) (paren : Token)
    (arguments : List Expr) (env : Nat) (s : St) (cv : Cell) (s1 : St)
    (args : List Cell) (s2 : St) (c : CallableVal)
    (hcallee : evalExpr fuel ctx callee env s = (.ok cv, s1))
    (hargs : evalExprs fuel ctx arguments env s1 = (.ok args, s2))
    (hc : tryCallable cv = .ok c)
    (hne : args.length ≠ callableArity s2 c) :
    evalExpr (fuel + 1) ctx (.call callee paren arguments) env s =
      (.error (.runtimeError (.new paren ("Expected " ++ toString (callableArity s2 c) ++
        " arguments but got " ++ toString args.length ++ "."))), s2) ∧
    (∀ e rest fa sf, evalExpr fuel ctx e env s = (.error fa, sf) →
      evalExprs (fuel + 1) ctx (e :: rest) env s = (.error fa, sf)) ∧
    (∀ stmt rest s0 er s3, execStmt fuel ctx stmt 0 s0 = (.error (.runtimeError er), s3) →
      interpret fuel ctx (stmt :: rest) s0 = (.done (some er), s3)) := by
  refine ⟨?_, ?_, ?_⟩
  · simp only [evalExpr, hcallee, hargs, hc, hne, if_true]
    simp [hne]
  · intro e rest fa sf h
    simp [evalExprs, h]
  · intro stmt rest s0 er s3 h
    simp [interpret, h]

/-- C6 witness: calling an arity-2 user function on one argument, inside a
unit with a following `print` statement: the call fails with exactly
"Expected 2 arguments but got 1.", `interpret` reports it and stops, the
`print` never runs (output stays empty) and the interpreter returns rather
than panicking. -/
theorem C6_witness :
    evalExpr 3 ⟨[]⟩
        (.call (.literal (some (.function 2))) ⟨.rightParen, ")", 1⟩
          [.literal (some (.number 1))]) 0
        ⟨[⟨none, []⟩],
         [.clock, .print,
          .user ⟨none, [⟨.identifier, "a", 1⟩, ⟨.identifier, "b", 1⟩], [], 0, false⟩],
         [], [], []⟩ =
      (.error (.runtimeError ⟨some ⟨.rightParen, ")", 1⟩, "Expected 2 arguments but got 1."⟩),
       ⟨[⟨none, []⟩],
        [.clock, .print,
         .user ⟨none, [⟨.identifier, "a", 1⟩, ⟨.identifier, "b", 1⟩], [], 0, false⟩],
        [], [], []⟩) ∧
    interpret 4 ⟨[]⟩
        [.expr (.call (.literal (some (.function 2))) ⟨.rightParen, ")", 1⟩
           [.literal (some (.number 1))]),
         .expr (.call (.literal (some (.function 1))) ⟨.rightParen, ")", 1⟩
           [.literal (some (.string "after"))])]
        ⟨[⟨none, []⟩],
         [.clock, .print,
          .user ⟨none, [⟨.identifier, "a", 1⟩, ⟨.identifier, "b", 1⟩], [], 0, false⟩],
         [], [], []⟩ =
      (.done (some ⟨some ⟨.rightParen, ")", 1⟩, "Expected 2 arguments but got 1."⟩),
       ⟨[⟨none, []⟩],
        [.clock, .print,
         .user ⟨none, [⟨.identifier, "a", 1⟩, ⟨.identifier, "b", 1⟩], [], 0, false⟩],
        [], [], []⟩) := by
  constructor
  · have h := (C6_arity_mismatch 2 ⟨[]⟩ (.literal (some (.function 2))) ⟨.rightParen, ")", 1⟩
      [.literal (some (.number 1))] 0
      ⟨[⟨none, []⟩],
       [.clock, .print,
        .user ⟨none, [⟨.identifier, "a", 1⟩, ⟨.identifier, "b", 1⟩], [], 0, false⟩],
       [], [], []⟩
      (some (.function 2)) _ [some (.number 1)] _ (.fn 2) rfl rfl rfl (by decide)).1
    exact h
  · have h := (C6_arity_mismatch 4 ⟨[]⟩ (.literal (some (.function 2))) ⟨.rightParen, ")", 1⟩
      [.literal (some (.number 1))] 0
      ⟨[⟨none, []⟩],
       [.clock, .print,
        .user ⟨none, [⟨.identifier, "a", 1⟩, ⟨.identifier, "b", 1⟩], [], 0, false⟩],
       [], [], []⟩
      (some (.function 2)) _ [some (.number 1)] _ (.fn 2) rfl rfl rfl (by decide)).2.2
      (.expr (.call (.literal (some (.function 2))) ⟨.rightParen, ")", 1⟩
         [.literal (some (.number 1))]))
      [.expr (.call (.literal (some (.function 1))) ⟨.rightParen, ")", 1⟩
         [.literal (some (.string "after"))])]
      ⟨[⟨none, []⟩],
       [.clock, .print,
        .user ⟨none, [⟨.identifier, "a", 1⟩, ⟨.identifier, "b", 1⟩], [], 0, false⟩],
       [], [], []⟩
      ⟨some ⟨.rightParen, ")", 1⟩, "Expected 2 arguments but got 1."⟩
      ⟨[⟨none, []⟩],
       [.clock, .print,
        .user ⟨none, [⟨.identifier, "a", 1⟩, ⟨.identifier, "b", 1⟩], [], 0, false⟩],
       [], [], []⟩
      rfl
    exact h

end Lox

namespace Lox

/-- `get_at` at distance 0 on the frame just appended: reads that frame's
own map. -/
theorem getAt_last (E : EnvStore) (fr : EnvRec) (n : String) :
    getAt (E ++ [fr]) E.length 0 n = fr.values.lookup n := by
  show ((E ++ [fr]).get? E.length).bind (fun env => env.values.lookup n) = _
  rw [List.get?_concat_length]
  rfl

/-- `get_at` at distance 0 ignores frames appended beyond the target. -/
theorem getAt_zero_append (E : EnvStore) (l2 : List EnvRec) (e : Nat) (n : String)
    (h : e < E.length) : getAt (E ++ l2) e 0 n = getAt E e 0 n := by
  show ((E ++ l2).get? e).bind (fun env => env.values.lookup n) =
    (E.get? e).bind (fun env => env.values.lookup n)
  rw [List.get?_append h]

/-- C7: binding a method to an instance — as `Instance::get` does for
property lookup (and the `super` path does identically) — allocates a fresh
function object whose closure is a fresh child frame of the method's
defining environment holding exactly the `this ↦ instance` binding; it
mutates neither the method blueprint nor any pre-existing frame, and
binding the same method to two different instances yields two distinct
function objects over two distinct frames, each seeing its own `this`. -/
theorem C7_method_binding (s : St) (fid : Nat) (f : FunRec)
    (hf : s.funs.get? fid = some (.user f)) :
    (∀ iid inst (nameTok : Token) mid b s',
      s.insts.get? iid = some inst →
      inst.fields.lookup nameTok.lexeme = none →
      findMethod s inst.cls nameTok.lexeme = some mid →
      bindFn s mid iid = some (b, s') →
      instanceGet s iid nameTok = (.ok (some (.function b)), s')) ∧
    (∀ i1 i2, ∃ g1 s1 g2 s2,
      bindFn s fid i1 = some (g1, s1) ∧
      g1 = s.funs.length ∧
      s1.funs.get? g1 = some (.user { f with closure := s.envs.length }) ∧
      s1.envs.get? s.envs.length =
        some ⟨some f.closure, [("this", some (.instance_ i1))]⟩ ∧
      s1.funs.get? fid = some (.user f) ∧
      (∀ e, e < s.envs.length → s1.envs.get? e = s.envs.get? e) ∧
      (∀ j, j < s.funs.length → s1.funs.get? j = s.funs.get? j) ∧
      getAt s1.envs s.envs.length 0 "this" = some (some (.instance_ i1)) ∧
      bindFn s1 fid i2 = some (g2, s2) ∧
      g1 ≠ g2 ∧
      getAt s2.envs s.envs.length 0 "this" = some (some (.instance_ i1)) ∧
      getAt s2.envs s1.envs.length 0 "this" = some (some (.instance_ i2))) := by
  constructor
  · intro iid inst nameTok mid b s' hi hfe hm hb
    rw [List.get?_eq_getElem?] at hi
    simp [instanceGet, hi, hfe, hm, hb]
  · intro i1 i2
    have hlt : fid < s.funs.length := by
      rcases Nat.lt_or_ge fid s.funs.length with h | h
      · exact h
      · rw [List.get?_eq_none.mpr h] at hf
        cases hf
    refine ⟨s.funs.length,
      { s with
        envs := s.envs ++ [⟨some f.closure, [("this", some (.instance_ i1))]⟩],
        funs := s.funs ++ [FunObj.user { f with closure := s.envs.length }] },
      s.funs.length + 1,
      { s with
        envs := (s.envs ++ [⟨some f.closure, [("this", some (.instance_ i1))]⟩]) ++
          [⟨some f.closure, [("this", some (.instance_ i2))]⟩],
        funs := (s.funs ++ [FunObj.user { f with closure := s.envs.length }]) ++
          [FunObj.user { f with closure := s.envs.length + 1 }] },
      ?_, rfl, ?_, ?_, ?_, ?_, ?_, ?_, ?_, ?_, ?_, ?_⟩
    · have hg : s.funs[fid]? = some (FunObj.user f) := by
        rw [← List.get?_eq_getElem?]
        exact hf
      simp [bindFn, hg]
    · exact List.get?_concat_length s.funs (.user { f with closure := s.envs.length })
    · exact List.get?_concat_length s.envs
        ⟨some f.closure, [("this", some (.instance_ i1))]⟩
    · rw [List.get?_append hlt]
      exact hf
    · intro e he
      exact List.get?_append he
    · intro j hj
      exact List.get?_append hj
    · dsimp only
      rw [getAt_last]
      rfl
    · have hg : s.funs[fid]? = some (FunObj.user f) := by
        rw [← List.get?_eq_getElem?]
        exact hf
      simp [bindFn, List.getElem?_append_left hlt, hg]
    · omega
    · dsimp only
      rw [getAt_zero_append _ _ _ _ (by simp), getAt_last]
      rfl
    · dsimp only
      rw [getAt_last]
      rfl
end Lox

namespace Lox

/-- C7 witness: binding the method stored at index 2 to instances 0 and 1
of a concrete store yields two distinct bound functions over two distinct
fresh frames, each frame reading back its own `this`. -/
theorem C7_witness :
    ∃ g1 s1 g2 s2,
      bindFn ⟨[⟨none, []⟩], [.clock, .print, .user ⟨none, [], [], 0, false⟩], [], [], []⟩
          2 0 = some (g1, s1) ∧
      bindFn s1 2 1 = some (g2, s2) ∧
      g1 ≠ g2 ∧
      getAt s2.envs 1 0 "this" = some (some (.instance_ 0)) ∧
      getAt s2.envs s1.envs.length 0 "this" = some (some (.instance_ 1)) := by
  obtain ⟨-, h2⟩ := C7_method_binding
    ⟨[⟨none, []⟩], [.clock, .print, .user ⟨none, [], [], 0, false⟩], [], [], []⟩
    2 ⟨none, [], [], 0, false⟩ rfl
  obtain ⟨g1, s1, g2, s2, hb1, _, _, _, _, _, _, _, hb2, hne, h11, h12⟩ := h2 0 1
  exact ⟨g1, s1, g2, s2, hb1, hb2, hne, h11, h12⟩

end Lox

namespace Lox

/-- `resolver.rs` `FunctionType`. -/
inductive FunctionType where
  | function
  | initializer
  | method
  deriving DecidableEq, Repr

/-- `resolver.rs` `ClassType`. -/
inductive ClassType where
  | class_
  deriving DecidableEq, Repr

/-- The resolver's mutable state (`Resolver` in resolver.rs): the scope
stack (innermost scope at the head, mirroring the Vec whose innermost is at
the back), the current function/class markers, the distance map pushed into
the interpreter through `Resolve::resolve`, and the `token_error` diagnostics
in emission order. -/
structure ResolverState where
  scopes : List (List (String × Bool))
  currentFunction : Option FunctionType
  currentClass : Option ClassType
  locals : List (Nat × Nat)
  errors : List (Token × String)

/-- `Resolver::begin_scope`. -/
def beginScope (rs : ResolverState) : ResolverState :=
  { rs with scopes := [] :: rs.scopes }

/-- `Resolver::end_scope`. -/
def endScope (rs : ResolverState) : ResolverState :=
  { rs with scopes := rs.scopes.tail }

/-- `Resolver::declare` (resolver.rs lines 132-140): in the innermost scope
(no-op when the stack is empty), reject a duplicate name, then record the
name as declared-but-not-defined. -/
def declareName (name : Token) (rs : ResolverState) : ResolverState :=
  match rs.scopes with
  | [] => rs
  | scope :: rest =>
    let rs1 :=
      if (scope.lookup name.lexeme).isSome then
        { rs with errors :=
            rs.errors ++ [(name, "Already a variable with this name in this scope.")] }
      else rs
    { rs1 with scopes := alInsert scope name.lexeme false :: rest }

/-- `Resolver::define`: mark the name defined in the innermost scope. -/
def defineName (name : Token) (rs : ResolverState) : ResolverState :=
  match rs.scopes with
  | [] => rs
  | scope :: rest => { rs with scopes := alInsert scope name.lexeme true :: rest }

/-- `Resolver::resolve_local` search: index of the innermost scope
containing the name — the scope distance. -/
def resolveLocalAux (lex : String) : List (List (String × Bool)) → Nat → Option Nat
  | [], _ => none
  | scope :: rest, d =>
    if (scope.lookup lex).isSome then some d else resolveLocalAux lex rest (d + 1)

/-- `Resolver::resolve_local` (resolver.rs lines 158-165): record the
distance for this expression identity when some scope binds the name;
leave it unresolved (assumed global) otherwise.  Never reports. -/
def resolveLocal (id : Nat) (name : Token) (rs : ResolverState) : ResolverState :=
  match resolveLocalAux name.lexeme rs.scopes 0 with
  | some d => { rs with locals := rs.locals ++ [(id, d)] }
  | none => rs

end Lox

namespace Lox

/-- Parameter handling of `Resolver::resolve_function`: declare and define
each parameter in order. -/
def declareDefineParams : List Token → ResolverState → ResolverState
  | [], rs => rs
  | p :: rest, rs => declareDefineParams rest (defineName p (declareName p rs))

mutual

/-- `Resolver::resolve_stmt` and its per-variant helpers. -/
def resolveStmt (stmt : Stmt) (rs : ResolverState) : ResolverState :=
  match stmt with
  | .block stmts => endScope (resolveStmts stmts (beginScope rs))
  | .expr e => resolveExpr e rs
  | .if_ c t e? =>
    let rs2 := resolveStmt t (resolveExpr c rs)
    match e? with
    | some e => resolveStmt e rs2
    | none => rs2
  | .return_ keyword value =>
    let rs1 :=
      if rs.currentFunction = none then
        { rs with errors := rs.errors ++ [(keyword, "Can't return from top-level code.")] }
      else rs
    match value with
    | some v =>
      let rs2 :=
        if rs1.currentFunction = some .initializer then
          { rs1 with errors :=
              rs1.errors ++ [(keyword, "Can't return a value from an initializer.")] }
        else rs1
      resolveExpr v rs2
    | none => rs1
  | .while_ c b => resolveStmt b (resolveExpr c rs)
  | .varDeclaration name init =>
    let rs1 := declareName name rs
    let rs2 :=
      match init with
      | some i => resolveExpr i rs1
      | none => rs1
    defineName name rs2
  | .class_ name superclass methods =>
    let enclosing := rs.currentClass
    let rs0 := { rs with currentClass := some .class_ }
    let rs1 := defineName name (declareName name rs0)
    let rs2 :=
      match superclass with
      | some sc =>
        -- `as_variable().expect("Expect identifier.")`: parser-produced
        -- superclass expressions are always `Variable`s; the panic path
        -- (non-variable superclass expression) is modelled as skipping the
        -- self-inheritance check.
        let rsA :=
          match sc.asVariable with
          | some scName =>
            if name.lexeme = scName.lexeme then
              { rs1 with errors :=
                  rs1.errors ++ [(scName, "A class can't inherit from itself.")] }
            else rs1
          | none => rs1
        let rsB := beginScope (resolveExpr sc rsA)
        match rsB.scopes with
        | scope :: rest => { rsB with scopes := alInsert scope "super" true :: rest }
        | [] => rsB
      | none => rs1
    let rs3 := beginScope rs2
    let rs4 :=
      match rs3.scopes with
      | scope :: rest => { rs3 with scopes := alInsert scope "this" true :: rest }
      | [] => rs3
    let rs5 := resolveMethods methods rs4
    let rs6 := endScope rs5
    let rs7 := if superclass.isSome then endScope rs6 else rs6
    { rs7 with currentClass := enclosing }

/-- `Resolver::resolve_stmts`. -/
def resolveStmts (stmts : List Stmt) (rs : ResolverState) : ResolverState :=
  match stmts with
  | [] => rs
  | stmt :: rest => resolveStmts rest (resolveStmt stmt rs)

/-- `Resolver::resolve_expr` and its per-variant helpers. -/
def resolveExpr (e : Expr) (rs : ResolverState) : ResolverState :=
  match e with
  | .binary l _ r => resolveExpr r (resolveExpr l rs)
  | .call callee _ args => resolveExprs args (resolveExpr callee rs)
  | .unary _ operand => resolveExpr operand rs
  | .literal _ => rs
  | .grouping inner => resolveExpr inner rs
  | .ternary c t e2 => resolveExpr e2 (resolveExpr t (resolveExpr c rs))
  | .var id name =>
    let rs1 :=
      match rs.scopes with
      | scope :: _ =>
        if scope.lookup name.lexeme = some false then
          { rs with errors :=
              rs.errors ++ [(name, "Can't read local variable in its own initializer.")] }
        else rs
      | [] => rs
    resolveLocal id name rs1
  | .assignment id name value => resolveLocal id name (resolveExpr value rs)
  | .logical l _ r => resolveExpr r (resolveExpr l rs)
  | .function f =>
    let rs1 :=
      match f.name with
      | some nm => defineName nm (declareName nm rs)
      | none => rs
    resolveFunction f .function rs1
  | .get object _ => resolveExpr object rs
  | .set object _ value => resolveExpr object (resolveExpr value rs)
  | .this id keyword =>
    if rs.currentClass = none then
      { rs with errors := rs.errors ++ [(keyword, "Can't use 'this' outside of a class.")] }
    else resolveLocal id keyword rs
  | .super id keyword _method => resolveLocal id keyword rs

/-- Argument list resolution of `Resolver::resolve_call_expr`. -/
def resolveExprs (es : List Expr) (rs : ResolverState) : ResolverState :=
  match es with
  | [] => rs
  | e :: rest => resolveExprs rest (resolveExpr e rs)

/-- `Resolver::resolve_function` (resolver.rs lines 180-193). -/
def resolveFunction (f : FunctionExpr) (ftype : FunctionType) (rs : ResolverState) :
    ResolverState :=
  match f with
  | .mk _name params body =>
    let enclosing := rs.currentFunction
    let rs1 := { rs with currentFunction := some ftype }
    let rs4 := resolveStmts body (declareDefineParams params (beginScope rs1))
    { (endScope rs4) with currentFunction := enclosing }

/-- The method loop of `Resolver::resolve_class_stmt` (lines 295-305). -/
def resolveMethods (methods : List FunctionExpr) (rs : ResolverState) : ResolverState :=
  match methods with
  | [] => rs
  | m :: rest =>
    let ftype :=
      match m.name with
      | some nm => if nm.lexeme == "init" then FunctionType.initializer else FunctionType.method
      | none => FunctionType.method
    resolveMethods rest (resolveFunction m ftype rs)

end

end Lox

namespace Lox

/-- `resolve_local` records at most a distance; it never reports. -/
theorem resolveLocal_errors (id : Nat) (name : Token) (rs : ResolverState) :
    (resolveLocal id name rs).errors = rs.errors := by
  unfold resolveLocal
  cases resolveLocalAux name.lexeme rs.scopes 0 <;> rfl

/-- C3 counterexample: the claim says every `super` expression outside a
class context is rejected, but `resolve_super_expr` (resolver.rs lines
333-335) performs no class-context check at all: resolving a top-level
`super.cook` produces no diagnostic. -/
theorem C3_counterexample :
    (resolveStmts [.expr (.super 0 ⟨.super_, "super", 1⟩ ⟨.identifier, "cook", 1⟩)]
        ⟨[], none, none, [], []⟩).errors = [] := by
  simp [resolveStmts, resolveStmt, resolveExpr, resolveLocal, resolveLocalAux]

/-- C3 (amended): whenever the resolver reaches a `this` expression with no
enclosing class context it reports "Can't use 'this' outside of a class."
(marking the unit as failed) and records no distance; with a class context
`this` resolves silently; a `super` expression, by contrast, is never
class-context-checked and never produces a diagnostic — it merely resolves
the distance (an unprotected `super` instead panics later, at runtime). -/
theorem C3_this_super_resolution :
    (∀ id keyword (rs : ResolverState), rs.currentClass = none →
      resolveExpr (.this id keyword) rs =
        { rs with errors :=
            rs.errors ++ [(keyword, "Can't use 'this' outside of a class.")] }) ∧
    (∀ id keyword (rs : ResolverState), rs.currentClass ≠ none →
      (resolveExpr (.this id keyword) rs).errors = rs.errors) ∧
    (∀ id keyword m (rs : ResolverState),
      (resolveExpr (.super id keyword m) rs).errors = rs.errors) := by
  refine ⟨?_, ?_, ?_⟩
  · intro id keyword rs h
    simp [resolveExpr, h]
  · intro id keyword rs h
    simp [resolveExpr, h, resolveLocal_errors]
  · intro id keyword m rs
    simp [resolveExpr, resolveLocal_errors]

/-- C3 witness: a bare top-level `this` draws exactly the claimed
diagnostic, via the amended theorem. -/
theorem C3_witness :
    resolveExpr (.this 0 ⟨.this_, "this", 3⟩) ⟨[], none, none, [], []⟩ =
      ⟨[], none, none, [],
       [(⟨.this_, "this", 3⟩, "Can't use 'this' outside of a class.")]⟩ := by
  have h := C3_this_super_resolution.1 0 ⟨.this_, "this", 3⟩ ⟨[], none, none, [], []⟩ rfl
  simpa using h

end Lox

namespace Lox

namespace Parser

/-- The parser (`parser.rs`): token vector, cursor, reported syntax errors
(`ErrorReporter::token_error` calls, in order), and a counter allocating
expression identities (standing for the addresses of freshly boxed
`Variable`/`Assignment`/`This`/`Super` nodes). -/
structure PState where
  tokens : List Token
  current : Nat
  errors : List (Token × String)
  nextId : Nat

/-- `Parser::peek` (`self.tokens[self.current]`).  A well-formed token
vector (the scanner's output) always ends with an `Eof` token the cursor
never passes, so the Rust indexing cannot panic; a malformed vector is
modelled with an `Eof` default. -/
def peek (p : PState) : Token :=
  p.tokens.getD p.current ⟨.eof, "", 0⟩

/-- `Parser::previous` (`self.tokens[self.current - 1]`). -/
def previous (p : PState) : Token :=
  p.tokens.getD (p.current - 1) ⟨.eof, "", 0⟩

/-- `Parser::is_at_end`. -/
def isAtEnd (p : PState) : Bool :=
  (peek p).kind == .eof

/-- `Parser::advance` (state part; the returned `&Token` is `previous`). -/
def advance (p : PState) : PState :=
  if isAtEnd p then p else { p with current := p.current + 1 }

/-- `Parser::check`. -/
def check (p : PState) (kind : TokenKind) : Bool :=
  if isAtEnd p then false else (peek p).kind == kind

/-- `Parser::match_one`. -/
def matchOne (p : PState) (kind : TokenKind) : Bool × PState :=
  if check p kind then (true, advance p) else (false, p)

/-- `Parser::match_many`. -/
def matchMany (p : PState) : List TokenKind → Bool × PState
  | [] => (false, p)
  | kind :: rest =>
    if check p kind then (true, advance p) else matchMany p rest

/-- `Parser::error`: report through the error reporter and yield `None`. -/
def perror (p : PState) (tok : Token) (message : String) : PState :=
  { p with errors := p.errors ++ [(tok, message)] }

/-- `Parser::consume`: advance past an expected token or report. -/
def consume (p : PState) (kind : TokenKind) (message : String) : Option Token × PState :=
  if check p kind then (some (peek p), advance p)
  else (none, perror p (peek p) message)

/-- Fresh expression identity (the address of a newly boxed node). -/
def freshId (p : PState) : Nat × PState :=
  (p.nextId, { p with nextId := p.nextId + 1 })

/-- `Parser::SYNCHRONIZE`: the token kinds that start a new
declaration/statement. -/
def SYNCHRONIZE : List TokenKind :=
  [.class_, .fun_, .var, .for_, .if_, .while_, .return_]

/-- The scan loop of `Parser::synchronize` (parser.rs lines 565-577), after
the initial `advance`: discard tokens until just past a `;` or in front of
a statement-starting keyword.  Fuelled; the cursor advances every step, so
`tokens.length + 1` fuel always suffices. -/
def syncLoop : Nat → PState → PState
  | 0, p => p
  | fuel + 1, p =>
    if isAtEnd p then p
    else if (previous p).kind == .semicolon then p
    else if SYNCHRONIZE.contains (peek p).kind then p
    else syncLoop fuel (advance p)

/-- `Parser::synchronize`. -/
def synchronize (p : PState) : PState :=
  syncLoop (p.tokens.length + 1) (advance p)

end Parser

end Lox

namespace Lox

namespace Parser

/-- `Parser::literal` (parser.rs lines 451-465). -/
def literalP (p : PState) : Option Expr × PState :=
  if isAtEnd p then (none, p)
  else
    match (peek p).kind with
    | .number n => (some (.literal (some (.number n))), advance p)
    | .string s => (some (.literal (some (.string s))), advance p)
    | _ => (none, p)

/-- The parameter loop of `Parser::function_literal` (lines 475-492): the
255-ceiling is a non-fatal diagnostic, a missing parameter name aborts.
Each iteration consumes at least one token, so `tokens.length + 1` fuel
always suffices. -/
def paramsLoop : Nat → PState → List Token → Option (List Token) × PState
  | 0, p, _ => (none, p)
  | fuel + 1, p, acc =>
    let p0 :=
      if 255 ≤ acc.length then perror p (peek p) "Can't have more than 255 parameters." else p
    match consume p0 .identifier "Expect parameter name." with
    | (none, p1) => (none, p1)
    | (some tok, p1) =>
      match matchOne p1 .comma with
      | (true, p2) => paramsLoop fuel p2 (acc ++ [tok])
      | (false, p2) => (some (acc ++ [tok]), p2)

/-- `Parser::EQUALITY_OPERATORS`. -/
def EQUALITY_OPERATORS : List TokenKind := [.bangEqual, .equalEqual]

/-- `Parser::COMPARISON_OPERATORS`. -/
def COMPARISON_OPERATORS : List TokenKind := [.greater, .greaterEqual, .less, .lessEqual]

/-- `Parser::TERM_OPERATORS`. -/
def TERM_OPERATORS : List TokenKind := [.minus, .plus]

/-- `Parser::FACTOR_OPERATORS`. -/
def FACTOR_OPERATORS : List TokenKind := [.slash, .star]

/-- `Parser::UNARY_OPERATORS`. -/
def UNARY_OPERATORS : List TokenKind := [.bang, .minus]

mutual

/-- `Parser::parse` (parser.rs lines 46-52): collect declarations until the
end of input; note the `?` — a failed declaration (after its synchronize)
aborts the whole parse with `None`. -/
def parse (fuel : Nat) (p : PState) : Option (List Stmt) × PState :=
  match fuel with
  | 0 => (none, p)
  | fuel + 1 =>
    if isAtEnd p then (some [], p)
    else
      match declaration fuel p with
      | (none, p1) => (none, p1)
      | (some stmt, p1) =>
        match parse fuel p1 with
        | (none, p2) => (none, p2)
        | (some rest, p2) => (some (stmt :: rest), p2)
termination_by structural fuel

/-- `Parser::declaration` (lines 58-64): try, and synchronize on failure. -/
def declaration (fuel : Nat) (p : PState) : Option Stmt × PState :=
  match fuel with
  | 0 => (none, p)
  | fuel + 1 =>
    match tryDeclaration fuel p with
    | (none, p1) => (none, synchronize p1)
    | (some stmt, p1) => (some stmt, p1)
termination_by structural fuel

/-- `Parser::try_declaration` (lines 66-76). -/
def tryDeclaration (fuel : Nat) (p : PState) : Option Stmt × PState :=
  match fuel with
  | 0 => (none, p)
  | fuel + 1 =>
    match matchOne p .class_ with
    | (true, p1) => classDeclaration fuel p1
    | (false, p1) =>
      match matchOne p1 .fun_ with
      | (true, p2) => functionDeclaration fuel p2
      | (false, p2) =>
        match matchOne p2 .var with
        | (true, p3) => varDeclaration fuel p3
        | (false, p3) => statement fuel p3
termination_by structural fuel

/-- `Parser::statement` (lines 78-92). -/
def statement (fuel : Nat) (p : PState) : Option Stmt × PState :=
  match fuel with
  | 0 => (none, p)
  | fuel + 1 =>
    match matchOne p .for_ with
    | (true, p1) => forStatement fuel p1
    | (false, p1) =>
      match matchOne p1 .if_ with
      | (true, p2) => ifStatement fuel p2
      | (false, p2) =>
        match matchOne p2 .return_ with
        | (true, p3) => returnStmt fuel p3
        | (false, p3) =>
          match matchOne p3 .while_ with
          | (true, p4) => whileStatement fuel p4
          | (false, p4) =>
            match matchOne p4 .leftBrace with
            | (true, p5) => block fuel p5
            | (false, p5) => expressionStatement fuel p5
termination_by structural fuel

/-- `Parser::for_statement` (lines 94-133): desugars into
`VarDeclaration`/`While`/`Block`. -/
def forStatement (fuel : Nat) (p : PState) : Option Stmt × PState :=
  match fuel with
  | 0 => (none, p)
  | fuel + 1 =>
    match consume p .leftParen "Expect '(' after 'for'." with
    | (none, p1) => (none, p1)
    | (some _, p1) =>
      let initStep : Option (Option Stmt) × PState :=
        match matchOne p1 .semicolon with
        | (true, p2) => (some none, p2)
        | (false, p2) =>
          match matchOne p2 .var with
          | (true, p3) =>
            match varDeclaration fuel p3 with
            | (none, p4) => (none, p4)
            | (some st, p4) => (some (some st), p4)
          | (false, p3) =>
            match expressionStatement fuel p3 with
            | (none, p4) => (none, p4)
            | (some st, p4) => (some (some st), p4)
      match initStep with
      | (none, p4) => (none, p4)
      | (some initializer, p4) =>
        let condStep : Option Expr × PState :=
          if !check p4 .semicolon then expression fuel p4
          else (some (.literal (some (.boolean true))), p4)
        match condStep with
        | (none, p5) => (none, p5)
        | (some condition, p5) =>
          match consume p5 .semicolon "Expect ';' after loop condition." with
          | (none, p6) => (none, p6)
          | (some _, p6) =>
            let incStep : Option (Option Expr) × PState :=
              if !check p6 .rightParen then
                match expression fuel p6 with
                | (none, p7) => (none, p7)
                | (some e, p7) => (some (some e), p7)
              else (some none, p6)
            match incStep with
            | (none, p7) => (none, p7)
            | (some increment, p7) =>
              match consume p7 .rightParen "Expect ')' after for clauses." with
              | (none, p8) => (none, p8)
              | (some _, p8) =>
                match statement fuel p8 with
                | (none, p9) => (none, p9)
                | (some body0, p9) =>
                  let body1 :=
                    match increment with
                    | some inc => Stmt.block [body0, .expr inc]
                    | none => body0
                  let body2 := Stmt.while_ condition body1
                  let body3 :=
                    match initializer with
                    | some ini => Stmt.block [ini, body2]
                    | none => body2
                  (some body3, p9)
termination_by structural fuel

/-- `Parser::if_statement` (lines 135-153). -/
def ifStatement (fuel : Nat) (p : PState) : Option Stmt × PState :=
  match fuel with
  | 0 => (none, p)
  | fuel + 1 =>
    match consume p .leftParen "Expect '(' after 'if'." with
    | (none, p1) => (none, p1)
    | (some _, p1) =>
      match expression fuel p1 with
      | (none, p2) => (none, p2)
      | (some condition, p2) =>
        match consume p2 .rightParen "Expect ')' after if condition." with
        | (none, p3) => (none, p3)
        | (some _, p3) =>
          match statement fuel p3 with
          | (none, p4) => (none, p4)
          | (some thenBranch, p4) =>
            match matchOne p4 .else_ with
            | (true, p5) =>
              match statement fuel p5 with
              | (none, p6) => (none, p6)
              | (some elseBranch, p6) =>
                (some (.if_ condition thenBranch (some elseBranch)), p6)
            | (false, p5) => (some (.if_ condition thenBranch none), p5)
termination_by structural fuel

/-- `Parser::return_stmt` (lines 155-169). -/
def returnStmt (fuel : Nat) (p : PState) : Option Stmt × PState :=
  match fuel with
  | 0 => (none, p)
  | fuel + 1 =>
    let keyword := previous p
    let valueStep : Option (Option Expr) × PState :=
      if !check p .semicolon then
        match expression fuel p with
        | (none, p1) => (none, p1)
        | (some e, p1) => (some (some e), p1)
      else (some none, p)
    match valueStep with
    | (none, p1) => (none, p1)
    | (some value, p1) =>
      match consume p1 .semicolon "Expect ';' after return value." with
      | (none, p2) => (none, p2)
      | (some _, p2) => (some (.return_ keyword value), p2)
termination_by structural fuel

/-- `Parser::var_declaration` (lines 171-186); note a failed initializer
expression is swallowed into `None` (no `?` on `self.expression()`). -/
def varDeclaration (fuel : Nat) (p : PState) : Option Stmt × PState :=
  match fuel with
  | 0 => (none, p)
  | fuel + 1 =>
    match consume p .identifier "Expect variable name." with
    | (none, p1) => (none, p1)
    | (some name, p1) =>
      let initStep : Option Expr × PState :=
        match matchOne p1 .equal with
        | (true, p2) => expression fuel p2
        | (false, p2) => (none, p2)
      match consume initStep.2 .semicolon "Expect ';' after variable declaration." with
      | (none, p3) => (none, p3)
      | (some _, p3) => (some (.varDeclaration name initStep.1), p3)
termination_by structural fuel

/-- `Parser::while_statement` (lines 188-196). -/
def whileStatement (fuel : Nat) (p : PState) : Option Stmt × PState :=
  match fuel with
  | 0 => (none, p)
  | fuel + 1 =>
    match consume p .leftParen "Expect '(' after 'while'." with
    | (none, p1) => (none, p1)
    | (some _, p1) =>
      match expression fuel p1 with
      | (none, p2) => (none, p2)
      | (some condition, p2) =>
        match consume p2 .rightParen "Expect ')' after condition." with
        | (none, p3) => (none, p3)
        | (some _, p3) =>
          match statement fuel p3 with
          | (none, p4) => (none, p4)
          | (some body, p4) => (some (.while_ condition body), p4)
termination_by structural fuel

/-- `Parser::expression_statement` (lines 198-204). -/
def expressionStatement (fuel : Nat) (p : PState) : Option Stmt × PState :=
  match fuel with
  | 0 => (none, p)
  | fuel + 1 =>
    match expression fuel p with
    | (none, p1) => (none, p1)
    | (some e, p1) =>
      match consume p1 .semicolon "Expect ';' after expression." with
      | (none, p2) => (none, p2)
      | (some _, p2) => (some (.expr e), p2)
termination_by structural fuel

/-- `Parser::class_declaration` (lines 206-231). -/
def classDeclaration (fuel : Nat) (p : PState) : Option Stmt × PState :=
  match fuel with
  | 0 => (none, p)
  | fuel + 1 =>
    match consume p .identifier "Expect class name." with
    | (none, p1) => (none, p1)
    | (some name, p1) =>
      let superStep : Option (Option Expr) × PState :=
        match matchOne p1 .less with
        | (true, p2) =>
          match consume p2 .identifier "Expect superclass name." with
          | (none, p3) => (none, p3)
          | (some _, p3) =>
            let (id, p4) := freshId p3
            (some (some (.var id (previous p4))), p4)
        | (false, p2) => (some none, p2)
      match superStep with
      | (none, p2) => (none, p2)
      | (some superclass, p2) =>
        match consume p2 .leftBrace "Expect '\x7b' before class body." with
        | (none, p3) => (none, p3)
        | (some _, p3) =>
          match methodsLoop fuel p3 [] with
          | (none, p4) => (none, p4)
          | (some methods, p4) =>
            match consume p4 .rightBrace "Expect '\x7d' after class body." with
            | (none, p5) => (none, p5)
            | (some _, p5) => (some (.class_ name superclass methods), p5)
termination_by structural fuel

/-- The method loop of `Parser::class_declaration` (lines 219-222). -/
def methodsLoop (fuel : Nat) (p : PState) (acc : List FunctionExpr) :
    Option (List FunctionExpr) × PState :=
  match fuel with
  | 0 => (none, p)
  | fuel + 1 =>
    if !check p .rightBrace && !isAtEnd p then
      match function_ fuel p "method" with
      | (none, p1) => (none, p1)
      | (some m, p1) => methodsLoop fuel p1 (acc ++ [m])
    else (some acc, p)
termination_by structural fuel

/-- `Parser::function_declaration` (lines 233-240): named-function sugar
for a `var` bound to a function literal. -/
def functionDeclaration (fuel : Nat) (p : PState) : Option Stmt × PState :=
  match fuel with
  | 0 => (none, p)
  | fuel + 1 =>
    match function_ fuel p "function" with
    | (none, p1) => (none, p1)
    | (some f, p1) =>
      match f.name with
      | none => (none, p1)
      | some name => (some (.varDeclaration name (some (.function f))), p1)
termination_by structural fuel

/-- `Parser::function` (lines 242-247). -/
def function_ (fuel : Nat) (p : PState) (kind : String) : Option FunctionExpr × PState :=
  match fuel with
  | 0 => (none, p)
  | fuel + 1 =>
    match consume p .identifier ("Expect " ++ kind ++ " name.") with
    | (none, p1) => (none, p1)
    | (some name, p1) => functionLiteral fuel p1 kind (some name)
termination_by structural fuel

/-- `Parser::block` (lines 249-252). -/
def block (fuel : Nat) (p : PState) : Option Stmt × PState :=
  match fuel with
  | 0 => (none, p)
  | fuel + 1 =>
    match stmtVec fuel p [] with
    | (none, p1) => (none, p1)
    | (some stmts, p1) => (some (.block stmts), p1)
termination_by structural fuel

/-- `Parser::stmt_vec` (lines 254-261); the closing-brace `consume`'s
result is discarded, so a missing `\x7d` is a diagnostic but not an abort. -/
def stmtVec (fuel : Nat) (p : PState) (acc : List Stmt) : Option (List Stmt) × PState :=
  match fuel with
  | 0 => (none, p)
  | fuel + 1 =>
    if !check p .rightBrace && !isAtEnd p then
      match declaration fuel p with
      | (none, p1) => (none, p1)
      | (some st, p1) => stmtVec fuel p1 (acc ++ [st])
    else
      (some acc, (consume p .rightBrace "Expect '\x7d' after block.").2)
termination_by structural fuel

/-- `Parser::expression` (lines 54-56). -/
def expression (fuel : Nat) (p : PState) : Option Expr × PState :=
  match fuel with
  | 0 => (none, p)
  | fuel + 1 => assigment fuel p
termination_by structural fuel

/-- `Parser::assigment` (sic; lines 263-280): parse as ternary, then
post-hoc rewrite a `Variable`/`Get` assignment target, reporting "Invalid
assignment target." for anything else. -/
def assigment (fuel : Nat) (p : PState) : Option Expr × PState :=
  match fuel with
  | 0 => (none, p)
  | fuel + 1 =>
    match ternary fuel p with
    | (none, p1) => (none, p1)
    | (some e, p1) =>
      match matchOne p1 .equal with
      | (false, p2) => (some e, p2)
      | (true, p2) =>
        let equals := previous p2
        match assigment fuel p2 with
        | (none, p3) => (none, p3)
        | (some value, p3) =>
          match e with
          | .var _ name =>
            let (id, p4) := freshId p3
            (some (.assignment id name value), p4)
          | .get object name => (some (.set object name value), p3)
          | _ => (none, perror p3 equals "Invalid assignment target.")
termination_by structural fuel

/-- `Parser::ternary` (lines 282-296); the `:` `consume`'s result is
discarded. -/
def ternary (fuel : Nat) (p : PState) : Option Expr × PState :=
  match fuel with
  | 0 => (none, p)
  | fuel + 1 =>
    match orE fuel p with
    | (none, p1) => (none, p1)
    | (some e, p1) =>
      match matchOne p1 .questionMark with
      | (false, p2) => (some e, p2)
      | (true, p2) =>
        match expression fuel p2 with
        | (none, p3) => (none, p3)
        | (some thenExpr, p3) =>
          match expression fuel (consume p3 .colon "Expect ':'.").2 with
          | (none, p4) => (none, p4)
          | (some elseExpr, p4) => (some (.ternary e thenExpr elseExpr), p4)
termination_by structural fuel

/-- `Parser::or` via the `logical` combinator (lines 298-322). -/
def orE (fuel : Nat) (p : PState) : Option Expr × PState :=
  match fuel with
  | 0 => (none, p)
  | fuel + 1 =>
    match andE fuel p with
    | (none, p1) => (none, p1)
    | (some e, p1) => orLoop fuel e p1
termination_by structural fuel

/-- The `while self.match_one(Or)` loop of the `logical` combinator. -/
def orLoop (fuel : Nat) (lhs : Expr) (p : PState) : Option Expr × PState :=
  match fuel with
  | 0 => (none, p)
  | fuel + 1 =>
    match matchOne p .or with
    | (false, p1) => (some lhs, p1)
    | (true, p1) =>
      let operator := previous p1
      match andE fuel p1 with
      | (none, p2) => (none, p2)
      | (some rhs, p2) => orLoop fuel (.logical lhs operator rhs) p2
termination_by structural fuel

/-- `Parser::and` via the `logical` combinator. -/
def andE (fuel : Nat) (p : PState) : Option Expr × PState :=
  match fuel with
  | 0 => (none, p)
  | fuel + 1 =>
    match equality fuel p with
    | (none, p1) => (none, p1)
    | (some e, p1) => andLoop fuel e p1
termination_by structural fuel

/-- The `while self.match_one(And)` loop of the `logical` combinator. -/
def andLoop (fuel : Nat) (lhs : Expr) (p : PState) : Option Expr × PState :=
  match fuel with
  | 0 => (none, p)
  | fuel + 1 =>
    match matchOne p .and with
    | (false, p1) => (some lhs, p1)
    | (true, p1) =>
      let operator := previous p1
      match equality fuel p1 with
      | (none, p2) => (none, p2)
      | (some rhs, p2) => andLoop fuel (.logical lhs operator rhs) p2
termination_by structural fuel

/-- `Parser::equality` = the left-associative `binary` combinator over the
equality operators (lines 324-353, specialised per level). -/
def equality (fuel : Nat) (p : PState) : Option Expr × PState :=
  match fuel with
  | 0 => (none, p)
  | fuel + 1 =>
    match comparison fuel p with
    | (none, p1) => (none, p1)
    | (some e, p1) => equalityLoop fuel e p1
termination_by structural fuel

/-- The `while self.match_many(ops)` loop of `binary`, equality level. -/
def equalityLoop (fuel : Nat) (lhs : Expr) (p : PState) : Option Expr × PState :=
  match fuel with
  | 0 => (none, p)
  | fuel + 1 =>
    match matchMany p EQUALITY_OPERATORS with
    | (false, p1) => (some lhs, p1)
    | (true, p1) =>
      match comparison fuel p1 with
      | (none, p2) => (none, p2)
      | (some rhs, p2) => equalityLoop fuel (.binary lhs (previous p1) rhs) p2
termination_by structural fuel

/-- `Parser::comparison` via `binary`. -/
def comparison (fuel : Nat) (p : PState) : Option Expr × PState :=
  match fuel with
  | 0 => (none, p)
  | fuel + 1 =>
    match term (fuel) p with
    | (none, p1) => (none, p1)
    | (some e, p1) => comparisonLoop fuel e p1
termination_by structural fuel

/-- `binary` loop, comparison level. -/
def comparisonLoop (fuel : Nat) (lhs : Expr) (p : PState) : Option Expr × PState :=
  match fuel with
  | 0 => (none, p)
  | fuel + 1 =>
    match matchMany p COMPARISON_OPERATORS with
    | (false, p1) => (some lhs, p1)
    | (true, p1) =>
      match term fuel p1 with
      | (none, p2) => (none, p2)
      | (some rhs, p2) => comparisonLoop fuel (.binary lhs (previous p1) rhs) p2
termination_by structural fuel

/-- `Parser::term` via `binary`. -/
def term (fuel : Nat) (p : PState) : Option Expr × PState :=
  match fuel with
  | 0 => (none, p)
  | fuel + 1 =>
    match factor fuel p with
    | (none, p1) => (none, p1)
    | (some e, p1) => termLoop fuel e p1
termination_by structural fuel

/-- `binary` loop, term level. -/
def termLoop (fuel : Nat) (lhs : Expr) (p : PState) : Option Expr × PState :=
  match fuel with
  | 0 => (none, p)
  | fuel + 1 =>
    match matchMany p TERM_OPERATORS with
    | (false, p1) => (some lhs, p1)
    | (true, p1) =>
      match factor fuel p1 with
      | (none, p2) => (none, p2)
      | (some rhs, p2) => termLoop fuel (.binary lhs (previous p1) rhs) p2
termination_by structural fuel

/-- `Parser::factor` via `binary`. -/
def factor (fuel : Nat) (p : PState) : Option Expr × PState :=
  match fuel with
  | 0 => (none, p)
  | fuel + 1 =>
    match unary fuel p with
    | (none, p1) => (none, p1)
    | (some e, p1) => factorLoop fuel e p1
termination_by structural fuel

/-- `binary` loop, factor level. -/
def factorLoop (fuel : Nat) (lhs : Expr) (p : PState) : Option Expr × PState :=
  match fuel with
  | 0 => (none, p)
  | fuel + 1 =>
    match matchMany p FACTOR_OPERATORS with
    | (false, p1) => (some lhs, p1)
    | (true, p1) =>
      match unary fuel p1 with
      | (none, p2) => (none, p2)
      | (some rhs, p2) => factorLoop fuel (.binary lhs (previous p1) rhs) p2
termination_by structural fuel

/-- `Parser::unary` (lines 355-366). -/
def unary (fuel : Nat) (p : PState) : Option Expr × PState :=
  match fuel with
  | 0 => (none, p)
  | fuel + 1 =>
    match matchMany p UNARY_OPERATORS with
    | (true, p1) =>
      let operator := previous p1
      match unary fuel p1 with
      | (none, p2) => (none, p2)
      | (some operand, p2) => (some (.unary operator operand), p2)
    | (false, p1) => callE fuel p1
termination_by structural fuel

/-- `Parser::call` (lines 368-385). -/
def callE (fuel : Nat) (p : PState) : Option Expr × PState :=
  match fuel with
  | 0 => (none, p)
  | fuel + 1 =>
    match primary fuel p with
    | (none, p1) => (none, p1)
    | (some e, p1) => callLoop fuel e p1
termination_by structural fuel

/-- The call/property-access loop of `Parser::call`. -/
def callLoop (fuel : Nat) (e : Expr) (p : PState) : Option Expr × PState :=
  match fuel with
  | 0 => (none, p)
  | fuel + 1 =>
    match matchOne p .leftParen with
    | (true, p1) =>
      match finishCall fuel e p1 with
      | (none, p2) => (none, p2)
      | (some e2, p2) => callLoop fuel e2 p2
    | (false, p1) =>
      match matchOne p1 .dot with
      | (true, p2) =>
        match consume p2 .identifier "Expect property name after '.'." with
        | (none, p3) => (none, p3)
        | (some name, p3) => callLoop fuel (.get e name) p3
      | (false, p2) => (some e, p2)
termination_by structural fuel

/-- `Parser::finish_call` (lines 387-411). -/
def finishCall (fuel : Nat) (callee : Expr) (p : PState) : Option Expr × PState :=
  match fuel with
  | 0 => (none, p)
  | fuel + 1 =>
    let argsStep : Option (List Expr) × PState :=
      if !check p .rightParen then argsLoop fuel p []
      else (some [], p)
    match argsStep with
    | (none, p1) => (none, p1)
    | (some args, p1) =>
      match consume p1 .rightParen "Expect ')' after arguments." with
      | (none, p2) => (none, p2)
      | (some paren, p2) => (some (.call callee paren args), p2)
termination_by structural fuel

/-- The argument loop of `Parser::finish_call`; the 255-ceiling is a
non-fatal diagnostic. -/
def argsLoop (fuel : Nat) (p : PState) (acc : List Expr) : Option (List Expr) × PState :=
  match fuel with
  | 0 => (none, p)
  | fuel + 1 =>
    let p0 :=
      if 255 ≤ acc.length then perror p (peek p) "Can't have more than 255 arguments." else p
    match expression fuel p0 with
    | (none, p1) => (none, p1)
    | (some e, p1) =>
      match matchOne p1 .comma with
      | (true, p2) => argsLoop fuel p2 (acc ++ [e])
      | (false, p2) => (some (acc ++ [e]), p2)
termination_by structural fuel

/-- `Parser::primary` (lines 413-449). -/
def primary (fuel : Nat) (p : PState) : Option Expr × PState :=
  match fuel with
  | 0 => (none, p)
  | fuel + 1 =>
    match matchOne p .false_ with
    | (true, p1) => (some (.literal (some (.boolean false))), p1)
    | (false, p1) =>
      match matchOne p1 .true_ with
      | (true, p2) => (some (.literal (some (.boolean true))), p2)
      | (false, p2) =>
        match matchOne p2 .nil with
        | (true, p3) => (some (.literal none), p3)
        | (false, p3) =>
          match literalP p3 with
          | (some e, p4) => (some e, p4)
          | (none, p4) =>
            match matchOne p4 .super_ with
            | (true, p5) =>
              let keyword := previous p5
              match consume p5 .dot "Expect '.' after 'super'." with
              | (none, p6) => (none, p6)
              | (some _, p6) =>
                match consume p6 .identifier "Expect superclass method name." with
                | (none, p7) => (none, p7)
                | (some method, p7) =>
                  let (id, p8) := freshId p7
                  (some (.super id keyword method), p8)
            | (false, p5) =>
              match matchOne p5 .this_ with
              | (true, p6) =>
                let (id, p7) := freshId p6
                (some (.this id (previous p7)), p7)
              | (false, p6) =>
                match matchOne p6 .identifier with
                | (true, p7) =>
                  let (id, p8) := freshId p7
                  (some (.var id (previous p8)), p8)
                | (false, p7) =>
                  match matchOne p7 .fun_ with
                  | (true, p8) => anonymousFunction fuel p8
                  | (false, p8) =>
                    match matchOne p8 .leftParen with
                    | (true, p9) =>
                      match expression fuel p9 with
                      | (none, p10) => (none, p10)
                      | (some e, p10) =>
                        match consume p10 .rightParen "Expect ')' after expression." with
                        | (none, p11) => (none, p11)
                        | (some _, p11) => (some (.grouping e), p11)
                    | (false, p9) => (none, perror p9 (peek p9) "Expect expression")
termination_by structural fuel

/-- `Parser::anonymous_function` (lines 467-469). -/
def anonymousFunction (fuel : Nat) (p : PState) : Option Expr × PState :=
  match fuel with
  | 0 => (none, p)
  | fuel + 1 =>
    match functionLiteral fuel p "function" none with
    | (none, p1) => (none, p1)
    | (some f, p1) => (some (.function f), p1)
termination_by structural fuel

/-- `Parser::function_literal` (lines 471-501). -/
def functionLiteral (fuel : Nat) (p : PState) (kind : String) (name : Option Token) :
    Option FunctionExpr × PState :=
  match fuel with
  | 0 => (none, p)
  | fuel + 1 =>
    match consume p .leftParen ("Expect '(' after " ++ kind ++ " name.") with
    | (none, p1) => (none, p1)
    | (some _, p1) =>
      let paramsStep : Option (List Token) × PState :=
        if !check p1 .rightParen then paramsLoop (p1.tokens.length + 1) p1 []
        else (some [], p1)
      match paramsStep with
      | (none, p2) => (none, p2)
      | (some params, p2) =>
        match consume p2 .rightParen "Expect ')' after parameters." with
        | (none, p3) => (none, p3)
        | (some _, p3) =>
          match consume p3 .leftBrace ("Expect '\x7b' before " ++ kind ++ " body.") with
          | (none, p4) => (none, p4)
          | (some _, p4) =>
            match stmtVec fuel p4 [] with
            | (none, p5) => (none, p5)
            | (some body, p5) => (some (.mk name params body), p5)
termination_by structural fuel

end

end Parser

end Lox

namespace Lox

/-- C1: the claim (and the spec) say the parser reports, synchronizes and
keeps parsing so one pass surfaces multiple syntax errors; but
`Parser::parse` (parser.rs line 49) applies `?` to `declaration()`, so the
first failed declaration — after its synchronize, whose work is thereby
wasted — aborts the whole parse with `None`.  On the two-error token
sequence for "+;+;" the parse returns `None` with exactly one reported
error, its cursor stopped at the synchronized boundary (index 2), from
where one further `declaration` call would have surfaced the second,
independent error. -/
theorem C1_parse_aborts_after_first_error :
    (Parser.parse 20 ⟨[⟨.plus, "+", 1⟩, ⟨.semicolon, ";", 1⟩, ⟨.plus, "+", 2⟩,
        ⟨.semicolon, ";", 2⟩, ⟨.eof, "", 2⟩], 0, [], 0⟩).1 = none ∧
    (Parser.parse 20 ⟨[⟨.plus, "+", 1⟩, ⟨.semicolon, ";", 1⟩, ⟨.plus, "+", 2⟩,
        ⟨.semicolon, ";", 2⟩, ⟨.eof, "", 2⟩], 0, [], 0⟩).2.errors =
      [(⟨.plus, "+", 1⟩, "Expect expression")] ∧
    (Parser.parse 20 ⟨[⟨.plus, "+", 1⟩, ⟨.semicolon, ";", 1⟩, ⟨.plus, "+", 2⟩,
        ⟨.semicolon, ";", 2⟩, ⟨.eof, "", 2⟩], 0, [], 0⟩).2.current = 2 ∧
    (Parser.declaration 20
      (Parser.parse 20 ⟨[⟨.plus, "+", 1⟩, ⟨.semicolon, ";", 1⟩, ⟨.plus, "+", 2⟩,
        ⟨.semicolon, ";", 2⟩, ⟨.eof, "", 2⟩], 0, [], 0⟩).2).2.errors =
      [(⟨.plus, "+", 1⟩, "Expect expression"),
       (⟨.plus, "+", 2⟩, "Expect expression")] := by
  exact ⟨rfl, rfl, rfl, rfl⟩

end Lox

namespace Lox

namespace Scanner

/-- The scanner's cursor state (`ScanTokens` in scanner.rs): the source as
chars, the start of the token in progress, the read cursor, the current
line, and the diagnostics reported through the error reporter. -/
structure SState where
  source : List Char
  start : Nat
  curr : Nat
  line : Nat
  errors : List (Nat × String)

/-- `ScanTokens::is_at_end`. -/
def isAtEnd (s : SState) : Bool :=
  s.source.length ≤ s.curr

/-- `ScanTokens::peek`: `'\0'` at the end. -/
def peek (s : SState) : Char :=
  if s.source.length ≤ s.curr then '\x00' else s.source.getD s.curr '\x00'

/-- `ScanTokens::peek_next`. -/
def peekNext (s : SState) : Char :=
  if s.source.length ≤ s.curr + 1 then '\x00' else s.source.getD (s.curr + 1) '\x00'

/-- The state effect of `ScanTokens::advance` (whose char is read before). -/
def bump (s : SState) : SState :=
  { s with curr := s.curr + 1 }

/-- `ScanTokens::match_char`. -/
def matchChar (s : SState) (expected : Char) : Bool × SState :=
  if s.source.length ≤ s.curr then (false, s)
  else if s.source.getD s.curr '\x00' ≠ expected then (false, s)
  else (true, bump s)

/-- `ScanTokens::copy_slice`: the chars of `source[begin..end]`. -/
def lexSlice (src : List Char) (a b : Nat) : List Char :=
  (src.drop a).take (b - a)

/-- `ScanTokens::current_lexeme`. -/
def currentLexeme (s : SState) : String :=
  String.mk (lexSlice s.source s.start s.curr)

/-- `ScanTokens::emit_token`. -/
def emitToken (s : SState) (kind : TokenKind) : Option Token :=
  some ⟨kind, currentLexeme s, s.line⟩

/-- `ErrorReporter::error` as seen from the scanner. -/
def serror (s : SState) (msg : String) : SState :=
  { s with errors := s.errors ++ [(s.line, msg)] }

/-- `char::is_ascii_digit`. -/
def isAsciiDigit (c : Char) : Bool :=
  48 ≤ c.toNat && c.toNat ≤ 57

/-- `char::is_ascii_alphabetic`. -/
def isAsciiAlpha (c : Char) : Bool :=
  (65 ≤ c.toNat && c.toNat ≤ 90) || (97 ≤ c.toNat && c.toNat ≤ 122)

/-- `char::is_ascii_alphanumeric`. -/
def isAsciiAlphanumeric (c : Char) : Bool :=
  isAsciiAlpha c || isAsciiDigit c

/-- `Scanner::keywords` (scanner.rs lines 22-41). -/
def keywords : List (String × TokenKind) :=
  [("and", .and), ("class", .class_), ("else", .else_), ("false", .false_),
   ("for", .for_), ("fun", .fun_), ("if", .if_), ("nil", .nil),
   ("or", .or), ("print", .print), ("return", .return_), ("super", .super_),
   ("this", .this_), ("true", .true_), ("var", .var), ("while", .while_)]

/-- Decimal interpretation of a number lexeme (`str::parse::<f64>`;
modelled exactly in `ℚ` — the claims under study only need that equal
lexemes parse to equal values). -/
def intVal (cs : List Char) : Nat :=
  cs.foldl (fun a c => a * 10 + (c.toNat - 48)) 0

/-- Parse `digits` or `digits.digits` into `ℚ`. -/
def parseNum (cs : List Char) : ℚ :=
  let intPart := cs.takeWhile (fun c => !(c = '.'))
  let rest := cs.dropWhile (fun c => !(c = '.'))
  match rest with
  | [] => (intVal intPart : ℚ)
  | _ :: frac => (intVal intPart : ℚ) + (intVal frac : ℚ) / ((10 : ℚ) ^ frac.length)

/-- The loop of `ScanTokens::comment`: skip to the end of the line. -/
def commentLoop : Nat → SState → SState
  | 0, s => s
  | fuel + 1, s =>
    if peek s ≠ '\n' && !isAtEnd s then commentLoop fuel (bump s) else s

/-- The loop of `ScanTokens::block_comment` (lines 129-146), tracking the
nesting depth; returns the final depth. -/
def blockCommentLoop : Nat → Nat → SState → Nat × SState
  | 0, nest, s => (nest, s)
  | fuel + 1, nest, s =>
    if !isAtEnd s && decide (0 < nest) then
      let ch := s.source.getD s.curr '\x00'
      let s1 := bump s
      let s2 := if ch = '\n' then { s1 with line := s1.line + 1 } else s1
      if ch = '/' then
        match matchChar s2 '*' with
        | (true, s3) => blockCommentLoop fuel (nest + 1) s3
        | (false, s3) => blockCommentLoop fuel nest s3
      else if ch = '*' then
        match matchChar s2 '/' with
        | (true, s3) => blockCommentLoop fuel (nest - 1) s3
        | (false, s3) => blockCommentLoop fuel nest s3
      else blockCommentLoop fuel nest s2
    else (nest, s)

/-- `ScanTokens::block_comment`: unterminated nesting is a diagnostic, and
never a token. -/
def blockCommentFn (s : SState) : Option Token × SState :=
  let r := blockCommentLoop (s.source.length + 1) 1 s
  if 0 < r.1 then (none, serror r.2 "Unexpected EOF") else (none, r.2)

/-- The scan loop of `ScanTokens::string` (lines 148-154): walk to the
closing quote or the end, counting newlines. -/
def stringLoop : Nat → SState → SState
  | 0, s => s
  | fuel + 1, s =>
    if peek s ≠ '"' && !isAtEnd s then
      let s1 := if peek s = '\n' then { s with line := s.line + 1 } else s
      stringLoop fuel (bump s1)
    else s

/-- `ScanTokens::string` (lines 148-163). -/
def stringFn (s : SState) : Option Token × SState :=
  let s1 := stringLoop (s.source.length + 1) s
  if isAtEnd s1 then (none, serror s1 "Unterminated string")
  else
    let s2 := bump s1
    let value := String.mk (lexSlice s2.source (s2.start + 1) (s2.curr - 1))
    (emitToken s2 (.string value), s2)

/-- The digit run loops of `ScanTokens::number`. -/
def digitsLoop : Nat → SState → SState
  | 0, s => s
  | fuel + 1, s =>
    if isAsciiDigit (peek s) then digitsLoop fuel (bump s) else s

/-- `ScanTokens::number` (lines 165-177). -/
def numberFn (s : SState) : Option Token × SState :=
  let s1 := digitsLoop (s.source.length + 1) s
  let s2 :=
    if peek s1 = '.' && isAsciiDigit (peekNext s1) then bump s1 else s1
  let s3 := digitsLoop (s2.source.length + 1) s2
  (emitToken s3 (.number (parseNum (lexSlice s3.source s3.start s3.curr))), s3)

/-- The alphanumeric run loop of `ScanTokens::identifier`. -/
def alnumLoop : Nat → SState → SState
  | 0, s => s
  | fuel + 1, s =>
    if isAsciiAlphanumeric (peek s) then alnumLoop fuel (bump s) else s

/-- `ScanTokens::identifier` (lines 179-190): keyword table lookup, else
`Identifier`. -/
def identifierFn (s : SState) : Option Token × SState :=
  let s1 := alnumLoop (s.source.length + 1) s
  let text := currentLexeme s1
  (emitToken s1 ((keywords.lookup text).getD .identifier), s1)

/-- `ScanTokens::cond_emit`. -/
def condEmit (s : SState) (ifMatch : Char) (thenEmit elseEmit : TokenKind) :
    Option Token × SState :=
  match matchChar s ifMatch with
  | (true, s1) => (emitToken s1 thenEmit, s1)
  | (false, s1) => (emitToken s1 elseEmit, s1)

/-- `ScanTokens::scan_token` (lines 75-120); the `match ch` arms become an
if-chain in source order.  Callers guarantee the cursor is in bounds. -/
def scanToken (s0 : SState) : Option Token × SState :=
  let ch := s0.source.getD s0.curr '\x00'
  let s := bump s0
  if ch = '(' then (emitToken s .leftParen, s)
  else if ch = ')' then (emitToken s .rightParen, s)
  else if ch = '\x7b' then (emitToken s .leftBrace, s)
  else if ch = '\x7d' then (emitToken s .rightBrace, s)
  else if ch = ',' then (emitToken s .comma, s)
  else if ch = '.' then (emitToken s .dot, s)
  else if ch = '-' then (emitToken s .minus, s)
  else if ch = '+' then (emitToken s .plus, s)
  else if ch = ';' then (emitToken s .semicolon, s)
  else if ch = '*' then (emitToken s .star, s)
  else if ch = '!' then condEmit s '=' .bangEqual .bang
  else if ch = '=' then condEmit s '=' .equalEqual .equal
  else if ch = '<' then condEmit s '=' .lessEqual .less
  else if ch = '>' then condEmit s '=' .greaterEqual .greater
  else if ch = '/' then
    match matchChar s '/' with
    | (true, s1) => (none, commentLoop (s1.source.length + 1) s1)
    | (false, s1) =>
      match matchChar s1 '*' with
      | (true, s2) => blockCommentFn s2
      | (false, s2) => (emitToken s2 .slash, s2)
  else if ch = ' ' then (none, s)
  else if ch = '\x0d' then (none, s)
  else if ch = '\x09' then (none, s)
  else if ch = '\x0a' then (none, { s with line := s.line + 1 })
  else if ch = '"' then stringFn s
  else if isAsciiDigit ch then numberFn s
  else if isAsciiAlpha ch then identifierFn s
  else (none, serror s "Unexpected character")

/-- The `Iterator for ScanTokens` loop (lines 263-278) unrolled into the
emitted token list: set `start`, stop with one `Eof` token at the end,
skip `None` results.  Each non-end iteration consumes at least one char,
so `source.length + 1` fuel always suffices. -/
def scanList : Nat → SState → List Token
  | 0, _ => []
  | fuel + 1, s =>
    let s0 := { s with start := s.curr }
    if isAtEnd s0 then [⟨.eof, currentLexeme s0, s0.line⟩]
    else
      match scanToken s0 with
      | (some t, s1) => t :: scanList fuel s1
      | (none, s1) => scanList fuel s1

/-- `Scanner::scan_tokens` collected into a list. -/
def scanTokens (source : String) : List Token :=
  scanList (source.toList.length + 1) ⟨source.toList, 0, 0, 1, []⟩

/-- The kind of the first token produced by re-scanning a text. -/
def firstTokenKind (source : String) : Option TokenKind :=
  (scanTokens source).head?.map Token.kind

end Scanner

end Lox

namespace Lox

namespace Scanner

/-- Characters handled by a dedicated arm of `scan_token`'s `match`. -/
def specialChar (c : Char) : Bool :=
  c = '(' || c = ')' || c = '\x7b' || c = '\x7d' || c = ',' || c = '.' || c = '-' ||
  c = '+' || c = ';' || c = '*' || c = '!' || c = '=' || c = '<' || c = '>' ||
  c = '/' || c = ' ' || c = '\x0d' || c = '\x09' || c = '\x0a' || c = '"'

/-- Char equality is code-point equality. -/
theorem char_eq_iff_toNat (c d : Char) : c = d ↔ c.toNat = d.toNat := by
  constructor
  · rintro rfl
    rfl
  · intro h
    exact Char.ext (UInt32.ext h)

/-- A digit is not one of the specially handled characters. -/
theorem digit_not_special (c : Char) (h : isAsciiDigit c = true) : specialChar c = false := by
  simp only [isAsciiDigit, Bool.and_eq_true, decide_eq_true_eq] at h
  simp only [specialChar, char_eq_iff_toNat, Bool.or_eq_false_iff, decide_eq_false_iff_not,
    show '('.toNat = 40 from rfl, show ')'.toNat = 41 from rfl,
    show '\x7b'.toNat = 123 from rfl, show '\x7d'.toNat = 125 from rfl,
    show ','.toNat = 44 from rfl, show '.'.toNat = 46 from rfl,
    show '-'.toNat = 45 from rfl, show '+'.toNat = 43 from rfl,
    show ';'.toNat = 59 from rfl, show '*'.toNat = 42 from rfl,
    show '!'.toNat = 33 from rfl, show '='.toNat = 61 from rfl,
    show '<'.toNat = 60 from rfl, show '>'.toNat = 62 from rfl,
    show '/'.toNat = 47 from rfl, show ' '.toNat = 32 from rfl,
    show '\x0d'.toNat = 13 from rfl, show '\x09'.toNat = 9 from rfl,
    show '\x0a'.toNat = 10 from rfl, show '"'.toNat = 34 from rfl]
  omega

/-- An ASCII letter is not one of the specially handled characters. -/
theorem alpha_not_special (c : Char) (h : isAsciiAlpha c = true) : specialChar c = false := by
  simp only [isAsciiAlpha, Bool.or_eq_true, Bool.and_eq_true, decide_eq_true_eq] at h
  simp only [specialChar, char_eq_iff_toNat, Bool.or_eq_false_iff, decide_eq_false_iff_not,
    show '('.toNat = 40 from rfl, show ')'.toNat = 41 from rfl,
    show '\x7b'.toNat = 123 from rfl, show '\x7d'.toNat = 125 from rfl,
    show ','.toNat = 44 from rfl, show '.'.toNat = 46 from rfl,
    show '-'.toNat = 45 from rfl, show '+'.toNat = 43 from rfl,
    show ';'.toNat = 59 from rfl, show '*'.toNat = 42 from rfl,
    show '!'.toNat = 33 from rfl, show '='.toNat = 61 from rfl,
    show '<'.toNat = 60 from rfl, show '>'.toNat = 62 from rfl,
    show '/'.toNat = 47 from rfl, show ' '.toNat = 32 from rfl,
    show '\x0d'.toNat = 13 from rfl, show '\x09'.toNat = 9 from rfl,
    show '\x0a'.toNat = 10 from rfl, show '"'.toNat = 34 from rfl]
  omega

/-- An ASCII letter is not a digit. -/
theorem alpha_not_digit (c : Char) (h : isAsciiAlpha c = true) : isAsciiDigit c = false := by
  simp only [isAsciiAlpha, Bool.or_eq_true, Bool.and_eq_true, decide_eq_true_eq] at h
  simp only [isAsciiDigit, Bool.and_eq_false_iff, decide_eq_false_iff_not]
  omega

end Scanner

end Lox

namespace Lox

namespace Scanner

/-- `takeWhile` stops exactly at the first failing element. -/
theorem takeWhile_all_append {p : Char → Bool} :
    ∀ (l1 : List Char) (y : Char) (l2 : List Char), (∀ x ∈ l1, p x = true) → p y = false →
    (l1 ++ y :: l2).takeWhile p = l1 := by
  intro l1
  induction l1 with
  | nil =>
    intro y l2 _ hy
    simp [List.takeWhile_cons, hy]
  | cons x xs ih =>
    intro y l2 hall hy
    have hx : p x = true := hall x (List.mem_cons_self x xs)
    simp only [List.cons_append, List.takeWhile_cons, hx]
    rw [ih y l2 (fun z hz => hall z (List.mem_cons_of_mem x hz)) hy]
    simp

/-- The head surviving `dropWhile` fails the predicate. -/
theorem dropWhile_head_not {p : Char → Bool} :
    ∀ (l : List Char) (y : Char) (ys : List Char), l.dropWhile p = y :: ys → p y = false := by
  intro l
  induction l with
  | nil => intro y ys h; cases h
  | cons x xs ih =>
    intro y ys h
    by_cases hx : p x = true
    · rw [List.dropWhile_cons_of_pos hx] at h
      exact ih y ys h
    · rw [List.dropWhile_cons_of_neg hx] at h
      cases h
      simpa using hx

/-- A one-char slice. -/
theorem lexSlice_one (src : List Char) (c : Nat) (h : c < src.length) :
    lexSlice src c (c + 1) = [src.getD c '\x00'] := by
  unfold lexSlice
  rw [Nat.add_sub_cancel_left, List.drop_eq_getElem_cons h, List.take_succ_cons,
    List.take_zero, List.getD_eq_getElem src '\x00' h]

/-- A two-char slice. -/
theorem lexSlice_two (src : List Char) (c : Nat) (h : c + 1 < src.length) :
    lexSlice src c (c + 2) = [src.getD c '\x00', src.getD (c + 1) '\x00'] := by
  unfold lexSlice
  have h0 : c < src.length := by omega
  rw [show c + 2 - c = 2 from by omega, List.drop_eq_getElem_cons h0, List.take_succ_cons,
    List.drop_eq_getElem_cons h, List.take_succ_cons, List.take_zero,
    List.getD_eq_getElem src '\x00' h0, List.getD_eq_getElem src '\x00' h]

/-- `scan_token` on a character with no dedicated arm falls through to the
number/identifier/unexpected-character handling. -/
theorem scanToken_catchall (s0 : SState)
    (h : specialChar (s0.source.getD s0.curr '\x00') = false) :
    scanToken s0 =
      (if isAsciiDigit (s0.source.getD s0.curr '\x00') then numberFn (bump s0)
       else if isAsciiAlpha (s0.source.getD s0.curr '\x00') then identifierFn (bump s0)
       else (none, serror (bump s0) "Unexpected character")) := by
  simp only [specialChar, Bool.or_eq_false_iff, decide_eq_false_iff_not] at h
  obtain ⟨⟨⟨⟨⟨⟨⟨⟨⟨⟨⟨⟨⟨⟨⟨⟨⟨⟨⟨h1, h2⟩, h3⟩, h4⟩, h5⟩, h6⟩, h7⟩, h8⟩, h9⟩, h10⟩,
    h11⟩, h12⟩, h13⟩, h14⟩, h15⟩, h16⟩, h17⟩, h18⟩, h19⟩, h20⟩ := h
  unfold scanToken
  rw [if_neg h1, if_neg h2, if_neg h3, if_neg h4, if_neg h5, if_neg h6, if_neg h7,
    if_neg h8, if_neg h9, if_neg h10, if_neg h11, if_neg h12, if_neg h13, if_neg h14,
    if_neg h15, if_neg h16, if_neg h17, if_neg h18, if_neg h19, if_neg h20]

end Scanner

end Lox

namespace Lox

namespace Scanner

/-- `peek` inside the source reads the cursor's char. -/
theorem peek_lt (s : SState) (h : s.curr < s.source.length) :
    peek s = s.source[s.curr] := by
  simp only [peek, Nat.not_le.mpr h, if_false]
  exact List.getD_eq_getElem s.source '\x00' h

/-- `peek` past the end is `'\0'`. -/
theorem peek_ge (s : SState) (h : s.source.length ≤ s.curr) : peek s = '\x00' := by
  simp [peek, h]

/-- The digit loop consumes exactly the maximal digit run at the cursor. -/
theorem digitsLoop_spec :
    ∀ (fuel : Nat) (s : SState), s.source.length - s.curr ≤ fuel →
    digitsLoop fuel s =
      { s with curr := s.curr + ((s.source.drop s.curr).takeWhile isAsciiDigit).length } := by
  intro fuel
  induction fuel with
  | zero =>
    intro s h
    rw [List.drop_eq_nil_of_le (by omega)]
    simp [digitsLoop]
  | succ fuel ih =>
    intro s h
    unfold digitsLoop
    by_cases hend : s.source.length ≤ s.curr
    · rw [List.drop_eq_nil_of_le hend, peek_ge s hend, if_neg (by decide)]
      simp
    · have hlt : s.curr < s.source.length := by omega
      rw [peek_lt s hlt, List.drop_eq_getElem_cons hlt]
      by_cases hd : isAsciiDigit s.source[s.curr] = true
      · rw [if_pos hd, ih (bump s) (by simp only [bump]; omega)]
        simp only [bump]
        rw [List.takeWhile_cons_of_pos hd]
        simp only [List.length_cons]
        congr 1
        omega
      · rw [if_neg hd, List.takeWhile_cons_of_neg (by simpa using hd)]
        simp

/-- The alphanumeric loop consumes exactly the maximal alphanumeric run. -/
theorem alnumLoop_spec :
    ∀ (fuel : Nat) (s : SState), s.source.length - s.curr ≤ fuel →
    alnumLoop fuel s =
      { s with curr := s.curr + ((s.source.drop s.curr).takeWhile isAsciiAlphanumeric).length } := by
  intro fuel
  induction fuel with
  | zero =>
    intro s h
    rw [List.drop_eq_nil_of_le (by omega)]
    simp [alnumLoop]
  | succ fuel ih =>
    intro s h
    unfold alnumLoop
    by_cases hend : s.source.length ≤ s.curr
    · rw [List.drop_eq_nil_of_le hend, peek_ge s hend, if_neg (by decide)]
      simp
    · have hlt : s.curr < s.source.length := by omega
      rw [peek_lt s hlt, List.drop_eq_getElem_cons hlt]
      by_cases hd : isAsciiAlphanumeric s.source[s.curr] = true
      · rw [if_pos hd, ih (bump s) (by simp only [bump]; omega)]
        simp only [bump]
        rw [List.takeWhile_cons_of_pos hd]
        simp only [List.length_cons]
        congr 1
        omega
      · rw [if_neg hd, List.takeWhile_cons_of_neg (by simpa using hd)]
        simp

/-- The string loop consumes exactly up to the closing quote (or the end),
touching only the cursor and the line counter. -/
theorem stringLoop_spec :
    ∀ (fuel : Nat) (s : SState), s.source.length - s.curr ≤ fuel →
    ∃ ln, stringLoop fuel s =
      { s with
        curr := s.curr + ((s.source.drop s.curr).takeWhile (fun c => !(c = '"'))).length,
        line := ln } := by
  intro fuel
  induction fuel with
  | zero =>
    intro s h
    rw [List.drop_eq_nil_of_le (by omega)]
    exact ⟨s.line, by simp [stringLoop]⟩
  | succ fuel ih =>
    intro s h
    unfold stringLoop
    by_cases hend : s.source.length ≤ s.curr
    · rw [List.drop_eq_nil_of_le hend]
      refine ⟨s.line, ?_⟩
      rw [if_neg (by simp [isAtEnd, hend])]
      simp
    · have hlt : s.curr < s.source.length := by omega
      rw [peek_lt s hlt, List.drop_eq_getElem_cons hlt]
      by_cases hq : s.source[s.curr] = '"'
      · refine ⟨s.line, ?_⟩
        rw [if_neg (by simp [hq])]
        rw [List.takeWhile_cons_of_neg (by simp [hq])]
        simp
      · have hcond : (decide ¬s.source[s.curr] = '"' && !isAtEnd s) = true := by
          simp [isAtEnd, hq, hend]
        rw [if_pos (by simpa using hcond)]
        set s1 := if s.source[s.curr] = '\x0a' then { s with line := s.line + 1 } else s with hs1
        have hsrc : (bump s1).source = s.source ∧ (bump s1).curr = s.curr + 1 ∧
            (bump s1).start = s.start ∧ (bump s1).errors = s.errors := by
          rw [hs1]
          split <;> simp [bump]
        obtain ⟨ln, ih'⟩ := ih (bump s1) (by rw [hsrc.1, hsrc.2.1]; omega)
        refine ⟨ln, ?_⟩
        rw [ih']
        rw [List.takeWhile_cons_of_pos (by simp [hq])]
        have : (bump s1) = { s with curr := s.curr + 1, line := s1.line } := by
          rw [hs1]
          split <;> simp [bump]
        rw [this]
        simp only [List.length_cons]
        congr 1
        omega

end Scanner

end Lox

namespace Lox

namespace Scanner

/-- If the very first `scan_token` of a text emits a token, that token
heads the scan. -/
theorem firstTokenKind_of_scanToken (src : List Char) (hne : 0 < src.length)
    (t : Token) (s1 : SState) (h : scanToken ⟨src, 0, 0, 1, []⟩ = (some t, s1)) :
    firstTokenKind (String.mk src) = some t.kind := by
  unfold firstTokenKind scanTokens
  have hl : (String.mk src).toList = src := rfl
  rw [hl]
  simp only [scanList]
  have hs0 : ({ (⟨src, 0, 0, 1, []⟩ : SState) with
      start := (⟨src, 0, 0, 1, []⟩ : SState).curr } : SState) = ⟨src, 0, 0, 1, []⟩ := rfl
  have hend : isAtEnd (⟨src, 0, 0, 1, []⟩ : SState) = false := by
    simp only [isAtEnd, decide_eq_false_iff_not, Nat.not_le]
    exact hne
  rw [hs0, hend]
  simp only [Bool.false_eq_true, if_false]
  rw [h]
  rfl

/-- Re-scanning a string lexeme `"…"` reproduces a `String` token carrying
the same contents. -/
theorem rescan_string (mid : List Char) (hmid : ∀ c ∈ mid, ¬(c = '"')) :
    firstTokenKind (String.mk ('"' :: (mid ++ ['"']))) = some (.string (String.mk mid)) := by
  have hscan : ∃ s1 ln, scanToken ⟨'"' :: (mid ++ ['"']), 0, 0, 1, []⟩ =
      (some ⟨.string (String.mk mid), String.mk ('"' :: (mid ++ ['"'])), ln⟩, s1) := by
    unfold scanToken
    simp only [List.getD_cons_zero, Char.reduceEq, reduceIte]
    unfold stringFn
    have hfuel : (⟨'"' :: (mid ++ ['"']), 0, 1, 1, []⟩ : SState).source.length -
        (⟨'"' :: (mid ++ ['"']), 0, 1, 1, []⟩ : SState).curr ≤
        (⟨'"' :: (mid ++ ['"']) , 0, 1, 1, []⟩ : SState).source.length + 1 := by omega
    obtain ⟨ln, hsl⟩ := stringLoop_spec _ ⟨'"' :: (mid ++ ['"']), 0, 1, 1, []⟩ hfuel
    simp only [bump]
    rw [hsl]
    have hdrop : (('"' :: (mid ++ ['"'])).drop 1) = mid ++ ['"'] := rfl
    have htw : ((mid ++ ['"']).takeWhile (fun c => !(c = '"'))).length = mid.length := by
      rw [takeWhile_all_append mid '"' [] (fun x hx => by simpa using hmid x hx) (by simp)]
    rw [hdrop, htw]
    have hend : isAtEnd { (⟨'"' :: (mid ++ ['"']), 0, 1, 1, []⟩ : SState) with
        curr := 1 + mid.length, line := ln } = false := by
      simp only [isAtEnd, decide_eq_false_iff_not, Nat.not_le, List.length_cons,
        List.length_append, List.length_singleton]
      omega
    rw [hend]
    simp only [Bool.false_eq_true, if_false, bump]
    have hval : lexSlice ('"' :: (mid ++ ['"'])) (0 + 1) (1 + mid.length + 1 - 1) = mid := by
      unfold lexSlice
      have : 1 + mid.length + 1 - 1 - (0 + 1) = mid.length := by omega
      rw [this]
      simp only [Nat.zero_add, List.drop_one, List.tail_cons]
      exact List.take_left mid ['"']
    have hlex : lexSlice ('"' :: (mid ++ ['"'])) 0 (1 + mid.length + 1) =
        '"' :: (mid ++ ['"']) := by
      unfold lexSlice
      rw [List.drop_zero, Nat.sub_zero]
      have : 1 + mid.length + 1 = ('"' :: (mid ++ ['"'])).length := by simp; omega
      rw [this, List.take_length]
    simp only [currentLexeme, emitToken, hval, hlex]
    exact ⟨_, ln, rfl⟩
  obtain ⟨s1, ln, hscan⟩ := hscan
  have := firstTokenKind_of_scanToken _ (by simp) _ _ hscan
  simpa using this

end Scanner

end Lox

namespace Lox

namespace Scanner

theorem rescan_number_int_core (d : Char) (ds : List Char) (hd : isAsciiDigit d = true)
    (hds : ∀ c ∈ ds, isAsciiDigit c = true) :
    ∃ s1 ln, scanToken ⟨d :: ds, 0, 0, 1, []⟩ =
      (some ⟨.number (parseNum (d :: ds)), String.mk (d :: ds), ln⟩, s1) := by
  rw [scanToken_catchall _ (by
    simpa only [List.getD_cons_zero] using digit_not_special d hd)]
  simp only [List.getD_cons_zero]
  rw [if_pos hd]
  have e1 : digitsLoop (ds.length + 1 + 1) (⟨d :: ds, 0, 1, 1, []⟩ : SState) =
      (⟨d :: ds, 0, 1 + ds.length, 1, []⟩ : SState) := by
    rw [digitsLoop_spec _ _ (Nat.le_trans (Nat.sub_le _ _) (by simp))]
    simp only [List.drop_one, List.tail_cons]
    rw [List.takeWhile_eq_self_iff.mpr hds]
  have hp : peek (⟨d :: ds, 0, 1 + ds.length, 1, []⟩ : SState) = '\x00' := by
    apply peek_ge
    simp
    omega
  have e2 : digitsLoop (ds.length + 1 + 1) (⟨d :: ds, 0, 1 + ds.length, 1, []⟩ : SState) =
      (⟨d :: ds, 0, 1 + ds.length, 1, []⟩ : SState) := by
    rw [digitsLoop_spec _ _ (Nat.le_trans (Nat.sub_le _ _) (by simp))]
    rw [List.drop_eq_nil_of_le (by simp; omega)]
    simp
  unfold numberFn
  simp only [bump, List.length_cons, Nat.zero_add]
  simp only [e1, hp]
  rw [if_neg (by simp)]
  dsimp only
  simp only [List.length_cons, e2]
  have hlex : lexSlice (d :: ds) 0 (1 + ds.length) = d :: ds := by
    unfold lexSlice
    rw [List.drop_zero, Nat.sub_zero]
    have h19 : 1 + ds.length = (d :: ds).length := by simp; omega
    rw [h19, List.take_length]
  simp only [emitToken, currentLexeme, hlex]
  exact ⟨_, _, rfl⟩

end Scanner

end Lox

namespace Lox

namespace Scanner

theorem getElem_of_drop_cons (l : List Char) (n : Nat) (y : Char) (ys : List Char)
    (hn : n < l.length) (h : l.drop n = y :: ys) : l[n] = y := by
  rw [List.drop_eq_getElem_cons hn] at h
  injection h with h1 h2

theorem rescan_number_frac_core (d : Char) (ds1 : List Char) (e : Char) (ds2 : List Char)
    (hd : isAsciiDigit d = true) (hds1 : ∀ c ∈ ds1, isAsciiDigit c = true)
    (he : isAsciiDigit e = true) (hds2 : ∀ c ∈ ds2, isAsciiDigit c = true) :
    ∃ s1 ln, scanToken ⟨d :: (ds1 ++ '.' :: e :: ds2), 0, 0, 1, []⟩ =
      (some ⟨.number (parseNum (d :: (ds1 ++ '.' :: e :: ds2))),
        String.mk (d :: (ds1 ++ '.' :: e :: ds2)), ln⟩, s1) := by
  have hlen : (d :: (ds1 ++ '.' :: e :: ds2)).length
      = ds1.length + ds2.length + 3 := by simp <;> omega
  have hdrop1 : (d :: (ds1 ++ '.' :: e :: ds2)).drop (1 + ds1.length) = '.' :: e :: ds2 := by
    have h0 : (d :: (ds1 ++ '.' :: e :: ds2)).drop (1 + ds1.length)
        = (ds1 ++ '.' :: e :: ds2).drop ds1.length := by
      rw [Nat.add_comm]
      simp [List.drop_succ_cons]
    rw [h0, List.drop_left]
  have hdrop2 : (d :: (ds1 ++ '.' :: e :: ds2)).drop (1 + ds1.length + 1) = e :: ds2 := by
    have h2 : (d :: (ds1 ++ '.' :: e :: ds2)).drop (1 + ds1.length + 1)
        = ((d :: (ds1 ++ '.' :: e :: ds2)).drop (1 + ds1.length)).drop 1 := by
      rw [List.drop_drop]
    rw [h2, hdrop1]
    rfl
  rw [scanToken_catchall _ (by
    simpa only [List.getD_cons_zero] using digit_not_special d hd)]
  simp only [List.getD_cons_zero]
  rw [if_pos hd]
  have e1 : digitsLoop ((ds1 ++ '.' :: e :: ds2).length + 1 + 1)
      (⟨d :: (ds1 ++ '.' :: e :: ds2), 0, 1, 1, []⟩ : SState) =
      (⟨d :: (ds1 ++ '.' :: e :: ds2), 0, 1 + ds1.length, 1, []⟩ : SState) := by
    rw [digitsLoop_spec _ _ (Nat.le_trans (Nat.sub_le _ _) (by simp))]
    simp only [List.drop_one, List.tail_cons]
    rw [takeWhile_all_append ds1 '.' (e :: ds2) hds1 (by decide)]
  have hlt1 : 1 + ds1.length < (d :: (ds1 ++ '.' :: e :: ds2)).length := by
    rw [hlen]
    omega
  have hlt2 : 1 + ds1.length + 1 < (d :: (ds1 ++ '.' :: e :: ds2)).length := by
    rw [hlen]
    omega
  have hp : peek (⟨d :: (ds1 ++ '.' :: e :: ds2), 0, 1 + ds1.length, 1, []⟩ : SState) = '.' := by
    rw [peek_lt _ hlt1]
    exact getElem_of_drop_cons _ _ _ _ hlt1 hdrop1
  have hpn : peekNext (⟨d :: (ds1 ++ '.' :: e :: ds2), 0, 1 + ds1.length, 1, []⟩ : SState)
      = e := by
    simp only [peekNext, Nat.not_le.mpr hlt2, if_false]
    rw [List.getD_eq_getElem _ '\x00' hlt2]
    exact getElem_of_drop_cons _ _ _ _ hlt2 hdrop2
  have e2 : digitsLoop ((ds1 ++ '.' :: e :: ds2).length + 1 + 1)
      (⟨d :: (ds1 ++ '.' :: e :: ds2), 0, 1 + ds1.length + 1, 1, []⟩ : SState) =
      (⟨d :: (ds1 ++ '.' :: e :: ds2), 0, 1 + ds1.length + 1 + (ds2.length + 1), 1, []⟩
        : SState) := by
    rw [digitsLoop_spec _ _ (Nat.le_trans (Nat.sub_le _ _) (by simp))]
    rw [hdrop2]
    rw [List.takeWhile_eq_self_iff.mpr (by
      intro c hc
      rcases List.mem_cons.mp hc with h | h
      · exact h ▸ he
      · exact hds2 c h)]
    rw [List.length_cons]
  have hlex : lexSlice (d :: (ds1 ++ '.' :: e :: ds2)) 0 (1 + ds1.length + 1 + (ds2.length + 1))
      = d :: (ds1 ++ '.' :: e :: ds2) := by
    unfold lexSlice
    rw [List.drop_zero, Nat.sub_zero]
    have h19 : 1 + ds1.length + 1 + (ds2.length + 1)
        = (d :: (ds1 ++ '.' :: e :: ds2)).length := by
      rw [hlen]
      omega
    rw [h19, List.take_length]
  unfold numberFn
  simp only [bump, List.length_cons, Nat.zero_add]
  simp only [e1, hp, hpn]
  rw [if_pos (by simp [he])]
  dsimp only
  simp only [List.length_cons, e2]
  simp only [emitToken, currentLexeme, hlex]
  exact ⟨_, _, rfl⟩

end Scanner

end Lox

namespace Lox

namespace Scanner

theorem rescan_identifier_core (a : Char) (as : List Char) (ha : isAsciiAlpha a = true)
    (has : ∀ c ∈ as, isAsciiAlphanumeric c = true) :
    ∃ s1 ln, scanToken ⟨a :: as, 0, 0, 1, []⟩ =
      (some ⟨(keywords.lookup (String.mk (a :: as))).getD .identifier,
        String.mk (a :: as), ln⟩, s1) := by
  rw [scanToken_catchall _ (by
    simpa only [List.getD_cons_zero] using alpha_not_special a ha)]
  simp only [List.getD_cons_zero]
  rw [if_neg (by simp [alpha_not_digit a ha]), if_pos ha]
  have e1 : alnumLoop (as.length + 1 + 1) (⟨a :: as, 0, 1, 1, []⟩ : SState) =
      (⟨a :: as, 0, 1 + as.length, 1, []⟩ : SState) := by
    rw [alnumLoop_spec _ _ (Nat.le_trans (Nat.sub_le _ _) (by simp))]
    simp only [List.drop_one, List.tail_cons]
    rw [List.takeWhile_eq_self_iff.mpr has]
  have hlex : lexSlice (a :: as) 0 (1 + as.length) = a :: as := by
    unfold lexSlice
    rw [List.drop_zero, Nat.sub_zero]
    have h19 : 1 + as.length = (a :: as).length := by simp <;> omega
    rw [h19, List.take_length]
  unfold identifierFn
  simp only [bump, List.length_cons, Nat.zero_add]
  simp only [e1]
  simp only [emitToken, currentLexeme, hlex]
  exact ⟨_, _, rfl⟩

end Scanner

end Lox

namespace Lox

namespace Scanner

/-- Re-scanning an all-digit lexeme reproduces a `Number` token with the
same parsed value. -/
theorem rescan_number_int (d : Char) (ds : List Char) (hd : isAsciiDigit d = true)
    (hds : ∀ c ∈ ds, isAsciiDigit c = true) :
    firstTokenKind (String.mk (d :: ds)) = some (.number (parseNum (d :: ds))) := by
  obtain ⟨s1, ln, hscan⟩ := rescan_number_int_core d ds hd hds
  have h2 := firstTokenKind_of_scanToken _ (by simp) _ _ hscan
  simpa using h2

/-- Re-scanning a `digits.digits` lexeme reproduces a `Number` token with
the same parsed value. -/
theorem rescan_number_frac (d : Char) (ds1 : List Char) (e : Char) (ds2 : List Char)
    (hd : isAsciiDigit d = true) (hds1 : ∀ c ∈ ds1, isAsciiDigit c = true)
    (he : isAsciiDigit e = true) (hds2 : ∀ c ∈ ds2, isAsciiDigit c = true) :
    firstTokenKind (String.mk (d :: (ds1 ++ '.' :: e :: ds2))) =
      some (.number (parseNum (d :: (ds1 ++ '.' :: e :: ds2)))) := by
  obtain ⟨s1, ln, hscan⟩ := rescan_number_frac_core d ds1 e ds2 hd hds1 he hds2
  have h2 := firstTokenKind_of_scanToken _ (by simp) _ _ hscan
  simpa using h2

/-- Re-scanning an identifier/keyword lexeme reproduces the same keyword
table decision. -/
theorem rescan_identifier (a : Char) (as : List Char) (ha : isAsciiAlpha a = true)
    (has : ∀ c ∈ as, isAsciiAlphanumeric c = true) :
    firstTokenKind (String.mk (a :: as)) =
      some ((keywords.lookup (String.mk (a :: as))).getD .identifier) := by
  obtain ⟨s1, ln, hscan⟩ := rescan_identifier_core a as ha has
  have h2 := firstTokenKind_of_scanToken _ (by simp) _ _ hscan
  simpa using h2

end Scanner

end Lox

namespace Lox

namespace Scanner


theorem emitOne_spec (s0 : SState) (hstart : s0.start = s0.curr)
    (hlt : s0.curr < s0.source.length) (k : TokenKind) (t : Token) (s1 : SState)
    (h : (emitToken (bump s0) k, bump s0) = (some t, s1)) :
    t = ⟨k, String.mk [s0.source.getD s0.curr '\x00'], s0.line⟩ := by
  have h1 : emitToken (bump s0) k = some t := congrArg Prod.fst h
  simp only [emitToken, Option.some.injEq] at h1
  have hlex : currentLexeme (bump s0) = String.mk [s0.source.getD s0.curr '\x00'] := by
    simp only [currentLexeme, bump, hstart]
    rw [lexSlice_one _ _ hlt]
  rw [hlex] at h1
  exact h1.symm

end Scanner

end Lox

namespace Lox

namespace Scanner

theorem matchChar_true (s : SState) (c : Char) (s' : SState)
    (h : matchChar s c = (true, s')) :
    s.curr < s.source.length ∧ s.source.getD s.curr '\x00' = c ∧ s' = bump s := by
  unfold matchChar at h
  split at h
  · cases h
  · split at h
    · cases h
    · rename_i h1 h2
      injection h with _ h3
      refine ⟨by omega, by simpa using h2, h3.symm⟩

theorem matchChar_false (s : SState) (c : Char) (s' : SState)
    (h : matchChar s c = (false, s')) : s' = s := by
  unfold matchChar at h
  split at h
  · injection h with _ h3
    exact h3.symm
  · split at h
    · injection h with _ h3
      exact h3.symm
    · cases h

theorem condEmit_spec (s0 : SState) (hstart : s0.start = s0.curr)
    (hlt : s0.curr < s0.source.length) (ifM : Char) (k1 k2 : TokenKind)
    (t : Token) (s1 : SState)
    (h : condEmit (bump s0) ifM k1 k2 = (some t, s1)) :
    (s0.curr + 1 < s0.source.length ∧ s0.source.getD (s0.curr + 1) '\x00' = ifM ∧
      t = ⟨k1, String.mk [s0.source.getD s0.curr '\x00', ifM], s0.line⟩)
    ∨ t = ⟨k2, String.mk [s0.source.getD s0.curr '\x00'], s0.line⟩ := by
  unfold condEmit at h
  cases hm : matchChar (bump s0) ifM with
  | mk b s2 =>
    rw [hm] at h
    cases b
    · right
      have hs2 : s2 = bump s0 := matchChar_false _ _ _ hm
      subst hs2
      have h1 : emitToken (bump s0) k2 = some t := congrArg Prod.fst h
      simp only [emitToken, Option.some.injEq] at h1
      have hlex : currentLexeme (bump s0) = String.mk [s0.source.getD s0.curr '\x00'] := by
        simp only [currentLexeme, bump, hstart]
        rw [lexSlice_one _ _ hlt]
      rw [hlex] at h1
      exact h1.symm
    · left
      obtain ⟨hb, hc, hs2⟩ := matchChar_true _ _ _ hm
      simp only [bump] at hb hc hs2
      subst hs2
      have h1 : emitToken (bump { s0 with curr := s0.curr + 1 }) k1 = some t :=
        congrArg Prod.fst h
      simp only [emitToken, Option.some.injEq] at h1
      have hlex : currentLexeme (bump { s0 with curr := s0.curr + 1 }) =
          String.mk [s0.source.getD s0.curr '\x00', s0.source.getD (s0.curr + 1) '\x00'] := by
        simp only [currentLexeme, bump, hstart]
        rw [show s0.curr + 1 + 1 = s0.curr + 2 from rfl, lexSlice_two _ _ hb]
      rw [hlex, hc] at h1
      exact ⟨hb, hc, h1.symm⟩

end Scanner

end Lox

namespace Lox

namespace Scanner

theorem stringFn_good (s0 : SState) (hstart : s0.start = s0.curr)
    (hq : s0.source.getD s0.curr '\x00' = '"')
    (t : Token) (s1 : SState) (h : stringFn (bump s0) = (some t, s1)) :
    firstTokenKind t.lexeme = some t.kind := by
  unfold stringFn at h
  obtain ⟨ln, hsl⟩ := stringLoop_spec ((bump s0).source.length + 1) (bump s0)
    (Nat.le_trans (Nat.sub_le _ _) (Nat.le_succ _))
  rw [hsl] at h
  dsimp only at h
  set mid := (((bump s0).source.drop (bump s0).curr).takeWhile fun c => !(c = '"')) with hmid
  split at h
  · injection h with h1 _
    cases h1
  · rename_i hend
    injection h with h1 _
    simp only [emitToken, Option.some.injEq] at h1
    rw [← h1]
    simp only [currentLexeme, bump, hstart] at hend hsl hmid ⊢
    have hmidlt : s0.curr + 1 + mid.length < s0.source.length := by
      simp only [bump, isAtEnd, decide_eq_true_eq, Nat.not_le] at hend
      omega
    have hclt : s0.curr < s0.source.length := by omega
    have hdropc : s0.source.drop (s0.curr + 1) =
        mid ++ (s0.source.drop (s0.curr + 1)).dropWhile (fun c => !(c = '"')) := by
      rw [hmid]
      rw [List.takeWhile_append_dropWhile]
    have hrest : (s0.source.drop (s0.curr + 1)).dropWhile (fun c => !(c = '"')) =
        s0.source.drop (s0.curr + 1 + mid.length) := by
      have h3 := congrArg (List.drop mid.length) hdropc
      rw [List.drop_left, List.drop_drop] at h3
      exact h3.symm
    have hr0 : s0.source.drop (s0.curr + 1 + mid.length) =
        s0.source[s0.curr + 1 + mid.length] :: s0.source.drop (s0.curr + 1 + mid.length + 1) := by
      exact List.drop_eq_getElem_cons hmidlt
    have hr0q : s0.source[s0.curr + 1 + mid.length] = '"' := by
      have h4 : ((s0.source.drop (s0.curr + 1)).dropWhile (fun c => !(c = '"'))) =
          s0.source[s0.curr + 1 + mid.length] :: s0.source.drop (s0.curr + 1 + mid.length + 1) := by
        rw [hrest, hr0]
      have h5 := dropWhile_head_not _ _ _ h4
      simpa using h5
    have hmidpred : ∀ c ∈ mid, ¬(c = '"') := by
      intro c hc
      have h5 := List.mem_takeWhile_imp (hmid ▸ hc)
      simpa using h5
    have hvalue : lexSlice s0.source (s0.curr + 1) (s0.curr + 1 + mid.length + 1 - 1) = mid := by
      unfold lexSlice
      have h6 : s0.curr + 1 + mid.length + 1 - 1 - (s0.curr + 1) = mid.length := by omega
      rw [h6, hdropc, List.take_left]
    have hlexeme : lexSlice s0.source s0.curr (s0.curr + 1 + mid.length + 1) =
        '"' :: (mid ++ ['"']) := by
      unfold lexSlice
      have h7 : s0.curr + 1 + mid.length + 1 - s0.curr = mid.length + 1 + 1 := by omega
      rw [h7, List.drop_eq_getElem_cons hclt, List.take_succ_cons]
      have h8 : s0.source[s0.curr] = '"' := by
        rw [← List.getD_eq_getElem s0.source '\x00' hclt]
        exact hq
      rw [h8]
      have h9 : List.drop (s0.curr + 1) s0.source =
          mid ++ ('"' :: s0.source.drop (s0.curr + 1 + mid.length + 1)) := by
        rw [hdropc, hrest, hr0, hr0q]
      rw [h9]
      have h10 : mid.length + 1 = mid.length + 1 := rfl
      rw [List.take_append]
      simp
    rw [hvalue, hlexeme]
    exact rescan_string mid hmidpred

end Scanner

end Lox

namespace Lox

namespace Scanner

theorem numberFn_good (s0 : SState) (hstart : s0.start = s0.curr)
    (hclt : s0.curr < s0.source.length)
    (hd : isAsciiDigit (s0.source.getD s0.curr '\x00') = true)
    (t : Token) (s1 : SState) (h : numberFn (bump s0) = (some t, s1)) :
    firstTokenKind t.lexeme = some t.kind := by
  unfold numberFn at h
  rw [digitsLoop_spec ((bump s0).source.length + 1) (bump s0)
    (Nat.le_trans (Nat.sub_le _ _) (Nat.le_succ _))] at h
  simp only [bump, hstart] at h
  set D1 := (s0.source.drop (s0.curr + 1)).takeWhile isAsciiDigit with hD1
  have hD1all : ∀ c ∈ D1, isAsciiDigit c = true := by
    intro c hc
    exact List.mem_takeWhile_imp (hD1 ▸ hc)
  have hdropc : s0.source.drop (s0.curr + 1) =
      D1 ++ (s0.source.drop (s0.curr + 1)).dropWhile isAsciiDigit := by
    rw [hD1, List.takeWhile_append_dropWhile]
  have hrest : (s0.source.drop (s0.curr + 1)).dropWhile isAsciiDigit =
      s0.source.drop (s0.curr + 1 + D1.length) := by
    have h3 := congrArg (List.drop D1.length) hdropc
    rw [List.drop_left, List.drop_drop] at h3
    exact h3.symm
  have hg : s0.source[s0.curr] = s0.source.getD s0.curr '\x00' :=
    (List.getD_eq_getElem s0.source '\x00' hclt).symm
  split at h
  · -- fractional part taken
    rename_i hcond
    rw [Bool.and_eq_true, decide_eq_true_eq] at hcond
    obtain ⟨hp', hpn'⟩ := hcond
    simp only [peek] at hp'
    split at hp'
    · exact absurd hp' (by decide)
    rename_i hlt1'
    have hlt1 : s0.curr + 1 + D1.length < s0.source.length := by omega
    simp only [peekNext] at hpn'
    split at hpn'
    · exact absurd hpn' (by decide)
    rename_i hlt2'
    have hlt2 : s0.curr + 1 + D1.length + 1 < s0.source.length := by omega
    have hdotq : s0.source[s0.curr + 1 + D1.length] = '.' := by
      rw [List.getD_eq_getElem s0.source ' ' hlt1] at hp'
      exact hp'
    have he : isAsciiDigit s0.source[s0.curr + 1 + D1.length + 1] = true := by
      rw [List.getD_eq_getElem s0.source ' ' hlt2] at hpn'
      exact hpn'
    rw [digitsLoop_spec _ _ (Nat.le_trans (Nat.sub_le _ _) (Nat.le_succ _))] at h
    set D2 := (s0.source.drop (s0.curr + 1 + D1.length + 1)).takeWhile isAsciiDigit with hD2
    have hds2 : ∀ c ∈ (s0.source.drop (s0.curr + 1 + D1.length + 1 + 1)).takeWhile isAsciiDigit,
        isAsciiDigit c = true := by
      intro c hc
      exact List.mem_takeWhile_imp hc
    have hdropd : s0.source.drop (s0.curr + 1 + D1.length + 1) =
        s0.source[s0.curr + 1 + D1.length + 1] ::
          s0.source.drop (s0.curr + 1 + D1.length + 1 + 1) :=
      List.drop_eq_getElem_cons hlt2
    have hD2cons : D2 = s0.source[s0.curr + 1 + D1.length + 1] ::
        (s0.source.drop (s0.curr + 1 + D1.length + 1 + 1)).takeWhile isAsciiDigit := by
      rw [hD2]
      conv_lhs => rw [hdropd]
      rw [List.takeWhile_cons_of_pos he]
    injection h with h1 _
    simp only [emitToken, currentLexeme, Option.some.injEq] at h1
    rw [← h1]
    have hL : lexSlice s0.source s0.curr (s0.curr + 1 + D1.length + 1 + D2.length) =
        s0.source.getD s0.curr ' ' :: (D1 ++ '.' :: D2) := by
      unfold lexSlice
      rw [show s0.curr + 1 + D1.length + 1 + D2.length - s0.curr =
        D1.length + (1 + D2.length) + 1 from by omega]
      rw [List.drop_eq_getElem_cons hclt, List.take_succ_cons, hg, hdropc, hrest,
        List.take_append]
      congr 2
      rw [List.drop_eq_getElem_cons hlt1, hdotq]
      rw [show 1 + D2.length = D2.length + 1 from by omega, List.take_succ_cons]
      congr 1
      conv_lhs => rw [show s0.source.drop (s0.curr + 1 + D1.length + 1) =
        D2 ++ (s0.source.drop (s0.curr + 1 + D1.length + 1)).dropWhile isAsciiDigit from by
          rw [hD2, List.takeWhile_append_dropWhile]]
      rw [List.take_left]
    rw [hL, hD2cons]
    exact rescan_number_frac _ D1 _ _ hd hD1all he hds2
  · -- no fractional part
    rename_i hcond
    have hD2nil : (s0.source.drop (s0.curr + 1 + D1.length)).takeWhile isAsciiDigit = [] := by
      cases hr : s0.source.drop (s0.curr + 1 + D1.length) with
      | nil => simp
      | cons r rs =>
        have h4 : (s0.source.drop (s0.curr + 1)).dropWhile isAsciiDigit = r :: rs := by
          rw [hrest, hr]
        have h5 := dropWhile_head_not _ _ _ h4
        rw [List.takeWhile_cons_of_neg (by simp [h5])]
    rw [digitsLoop_spec _ _ (Nat.le_trans (Nat.sub_le _ _) (Nat.le_succ _))] at h
    simp only [hD2nil, List.length_nil, Nat.add_zero] at h
    injection h with h1 _
    simp only [emitToken, currentLexeme, Option.some.injEq] at h1
    rw [← h1]
    have hL : lexSlice s0.source s0.curr (s0.curr + 1 + D1.length) =
        s0.source.getD s0.curr '\x00' :: D1 := by
      unfold lexSlice
      rw [show s0.curr + 1 + D1.length - s0.curr = D1.length + 1 from by omega]
      rw [List.drop_eq_getElem_cons hclt, List.take_succ_cons, hg, hdropc, List.take_left]
    simp only [hL]
    exact rescan_number_int _ D1 hd hD1all

end Scanner

end Lox

namespace Lox

namespace Scanner

theorem identifierFn_good (s0 : SState) (hstart : s0.start = s0.curr)
    (hclt : s0.curr < s0.source.length)
    (ha : isAsciiAlpha (s0.source.getD s0.curr '\x00') = true)
    (t : Token) (s1 : SState) (h : identifierFn (bump s0) = (some t, s1)) :
    firstTokenKind t.lexeme = some t.kind := by
  unfold identifierFn at h
  rw [alnumLoop_spec ((bump s0).source.length + 1) (bump s0)
    (Nat.le_trans (Nat.sub_le _ _) (Nat.le_succ _))] at h
  simp only [bump, hstart] at h
  set A := (s0.source.drop (s0.curr + 1)).takeWhile isAsciiAlphanumeric with hA
  have hAall : ∀ c ∈ A, isAsciiAlphanumeric c = true := by
    intro c hc
    exact List.mem_takeWhile_imp (hA ▸ hc)
  have hdropc : s0.source.drop (s0.curr + 1) =
      A ++ (s0.source.drop (s0.curr + 1)).dropWhile isAsciiAlphanumeric := by
    rw [hA, List.takeWhile_append_dropWhile]
  have hg : s0.source[s0.curr] = s0.source.getD s0.curr '\x00' :=
    (List.getD_eq_getElem s0.source '\x00' hclt).symm
  injection h with h1 _
  simp only [emitToken, currentLexeme, Option.some.injEq] at h1
  rw [← h1]
  have hL : lexSlice s0.source s0.curr (s0.curr + 1 + A.length) =
      s0.source.getD s0.curr '\x00' :: A := by
    unfold lexSlice
    rw [show s0.curr + 1 + A.length - s0.curr = A.length + 1 from by omega]
    rw [List.drop_eq_getElem_cons hclt, List.take_succ_cons, hg, hdropc, List.take_left]
  rw [hL]
  exact rescan_identifier _ A ha hAall

end Scanner

end Lox

namespace Lox

namespace Scanner

theorem scanToken_good (s0 : SState) (hstart : s0.start = s0.curr)
    (hclt : s0.curr < s0.source.length) (t : Token) (s1 : SState)
    (h : scanToken s0 = (some t, s1)) :
    firstTokenKind t.lexeme = some t.kind := by
  unfold scanToken at h
  by_cases h1 : s0.source.getD s0.curr '\x00' = '('
  · rw [if_pos h1] at h
    rw [emitOne_spec s0 hstart hclt _ _ _ h, h1]
    rfl
  rw [if_neg h1] at h
  by_cases h2 : s0.source.getD s0.curr '\x00' = ')'
  · rw [if_pos h2] at h
    rw [emitOne_spec s0 hstart hclt _ _ _ h, h2]
    rfl
  rw [if_neg h2] at h
  by_cases h3 : s0.source.getD s0.curr '\x00' = '\x7b'
  · rw [if_pos h3] at h
    rw [emitOne_spec s0 hstart hclt _ _ _ h, h3]
    rfl
  rw [if_neg h3] at h
  by_cases h4 : s0.source.getD s0.curr '\x00' = '\x7d'
  · rw [if_pos h4] at h
    rw [emitOne_spec s0 hstart hclt _ _ _ h, h4]
    rfl
  rw [if_neg h4] at h
  by_cases h5 : s0.source.getD s0.curr '\x00' = ','
  · rw [if_pos h5] at h
    rw [emitOne_spec s0 hstart hclt _ _ _ h, h5]
    rfl
  rw [if_neg h5] at h
  by_cases h6 : s0.source.getD s0.curr '\x00' = '.'
  · rw [if_pos h6] at h
    rw [emitOne_spec s0 hstart hclt _ _ _ h, h6]
    rfl
  rw [if_neg h6] at h
  by_cases h7 : s0.source.getD s0.curr '\x00' = '-'
  · rw [if_pos h7] at h
    rw [emitOne_spec s0 hstart hclt _ _ _ h, h7]
    rfl
  rw [if_neg h7] at h
  by_cases h8 : s0.source.getD s0.curr '\x00' = '+'
  · rw [if_pos h8] at h
    rw [emitOne_spec s0 hstart hclt _ _ _ h, h8]
    rfl
  rw [if_neg h8] at h
  by_cases h9 : s0.source.getD s0.curr '\x00' = ';'
  · rw [if_pos h9] at h
    rw [emitOne_spec s0 hstart hclt _ _ _ h, h9]
    rfl
  rw [if_neg h9] at h
  by_cases h10 : s0.source.getD s0.curr '\x00' = '*'
  · rw [if_pos h10] at h
    rw [emitOne_spec s0 hstart hclt _ _ _ h, h10]
    rfl
  rw [if_neg h10] at h
  by_cases h11 : s0.source.getD s0.curr '\x00' = '!'
  · rw [if_pos h11] at h
    rcases condEmit_spec s0 hstart hclt _ _ _ _ _ h with ⟨_, _, ht⟩ | ht
    · rw [ht, h11]
      rfl
    · rw [ht, h11]
      rfl
  rw [if_neg h11] at h
  by_cases h12 : s0.source.getD s0.curr '\x00' = '='
  · rw [if_pos h12] at h
    rcases condEmit_spec s0 hstart hclt _ _ _ _ _ h with ⟨_, _, ht⟩ | ht
    · rw [ht, h12]
      rfl
    · rw [ht, h12]
      rfl
  rw [if_neg h12] at h
  by_cases h13 : s0.source.getD s0.curr '\x00' = '<'
  · rw [if_pos h13] at h
    rcases condEmit_spec s0 hstart hclt _ _ _ _ _ h with ⟨_, _, ht⟩ | ht
    · rw [ht, h13]
      rfl
    · rw [ht, h13]
      rfl
  rw [if_neg h13] at h
  by_cases h14 : s0.source.getD s0.curr '\x00' = '>'
  · rw [if_pos h14] at h
    rcases condEmit_spec s0 hstart hclt _ _ _ _ _ h with ⟨_, _, ht⟩ | ht
    · rw [ht, h14]
      rfl
    · rw [ht, h14]
      rfl
  rw [if_neg h14] at h
  by_cases h15 : s0.source.getD s0.curr '\x00' = '/'
  · rw [if_pos h15] at h
    cases hm1 : matchChar (bump s0) '/' with
    | mk b1 sa =>
      rw [hm1] at h
      cases b1
      · dsimp only at h
        cases hm2 : matchChar sa '*' with
        | mk b2 sb =>
          rw [hm2] at h
          cases b2
          · dsimp only at h
            have hsb : sb = sa := matchChar_false _ _ _ hm2
            have hsa : sa = bump s0 := matchChar_false _ _ _ hm1
            rw [hsb, hsa] at h
            rw [emitOne_spec s0 hstart hclt _ _ _ h, h15]
            rfl
          · dsimp only at h
            exfalso
            unfold blockCommentFn at h
            dsimp only at h
            split at h
            · injection h with hx _
              cases hx
            · injection h with hx _
              cases hx
      · dsimp only at h
        exfalso
        injection h with hx _
        cases hx
  rw [if_neg h15] at h
  by_cases h16 : s0.source.getD s0.curr '\x00' = ' '
  · rw [if_pos h16] at h
    injection h with hx _
    cases hx
  rw [if_neg h16] at h
  by_cases h17 : s0.source.getD s0.curr '\x00' = '\x0d'
  · rw [if_pos h17] at h
    injection h with hx _
    cases hx
  rw [if_neg h17] at h
  by_cases h18 : s0.source.getD s0.curr '\x00' = '\x09'
  · rw [if_pos h18] at h
    injection h with hx _
    cases hx
  rw [if_neg h18] at h
  by_cases h19 : s0.source.getD s0.curr '\x00' = '\x0a'
  · rw [if_pos h19] at h
    injection h with hx _
    cases hx
  rw [if_neg h19] at h
  by_cases h20 : s0.source.getD s0.curr '\x00' = '"'
  · rw [if_pos h20] at h
    exact stringFn_good s0 hstart h20 _ _ h
  rw [if_neg h20] at h
  by_cases h21 : isAsciiDigit (s0.source.getD s0.curr '\x00') = true
  · rw [if_pos h21] at h
    exact numberFn_good s0 hstart hclt h21 _ _ h
  rw [if_neg h21] at h
  by_cases h22 : isAsciiAlpha (s0.source.getD s0.curr '\x00') = true
  · rw [if_pos h22] at h
    exact identifierFn_good s0 hstart hclt h22 _ _ h
  rw [if_neg h22] at h
  exfalso
  injection h with hx _
  cases hx

end Scanner

end Lox

namespace Lox

namespace Scanner

/-- Every token of a scan other than the final `Eof` comes out of a
`scan_token` call whose window starts at the cursor, inside the source. -/
theorem scanList_good : ∀ (fuel : Nat) (s : SState) (t : Token),
    t ∈ scanList fuel s → t.kind ≠ .eof → firstTokenKind t.lexeme = some t.kind := by
  intro fuel
  induction fuel with
  | zero =>
    intro s t ht _
    simp only [scanList, List.not_mem_nil] at ht
  | succ fuel ih =>
    intro s t ht hne
    rw [scanList] at ht
    dsimp only at ht
    by_cases hend : isAtEnd { s with start := s.curr } = true
    · rw [if_pos hend] at ht
      rw [List.mem_singleton] at ht
      rw [ht] at hne
      exact absurd rfl hne
    · rw [if_neg hend] at ht
      cases hscan : scanToken { s with start := s.curr } with
      | mk ot s2 =>
        rw [hscan] at ht
        cases ot with
        | some tt =>
          dsimp only at ht
          rcases List.mem_cons.mp ht with hh | hh
          · have hclt : ({ s with start := s.curr } : SState).curr <
                ({ s with start := s.curr } : SState).source.length := by
              simp only [isAtEnd, decide_eq_true_eq, Nat.not_le] at hend
              exact hend
            rw [hh]
            exact scanToken_good _ rfl hclt _ _ hscan
          · exact ih _ _ hh hne
        | none =>
          dsimp only at ht
          exact ih _ _ ht hne

end Scanner

end Lox

namespace Lox

/-- C9: for every token emitted by scanning any source text, other than
the end-of-input token, re-scanning that token's exact lexeme alone
produces a first token of the same kind (lexeme-to-token round trip). -/
theorem C9_lexeme_roundtrip (source : String) (t : Token)
    (hmem : t ∈ Scanner.scanTokens source) (hne : t.kind ≠ .eof) :
    Scanner.firstTokenKind t.lexeme = some t.kind := by
  unfold Scanner.scanTokens at hmem
  exact Scanner.scanList_good _ _ _ hmem hne

/-- Witness: the `<=` token scanned from the source `"<= 12"` re-scans to
`LessEqual`. -/
theorem C9_witness :
    (⟨.lessEqual, "<=", 1⟩ : Token) ∈ Scanner.scanTokens "<=" ∧
      Scanner.firstTokenKind (Token.lexeme ⟨.lessEqual, "<=", 1⟩) = some .lessEqual :=
  ⟨by decide, C9_lexeme_roundtrip "<=" ⟨.lessEqual, "<=", 1⟩ (by decide) (by decide)⟩

end Lox
